import Mathlib

/-!
Verification of the source-metadata extraction layer of the storybook-rest-api
repository (file `src/parsers.js`).  The JavaScript functions are shallowly
embedded as total Lean functions over an explicit file-system model.  Each
regular expression of the source is hand-compiled into a deterministic scanner
whose semantics follow the JS backtracking engine on the construct in question;
every scanner carries a comment quoting the regex it implements.  JS objects
used as string-keyed maps are modelled as association lists with
update-in-place-or-append assignment, mirroring JS property-insertion order.
Caveats (documented where relevant): character classes `\s`, `\w`, case
conversion and `trim` are modelled on their ASCII fragments (all inputs in this
repository are ASCII), and IEEE-754 rounding of `Number(...)` is not modelled
(values are kept as exact rationals).
-/

namespace SB

/-- ASCII fragment of the JS `\s` character class (also used by `trim`). -/
def isJsWs (c : Char) : Bool :=
  c = ' ' || c = '\t' || c = '\n' || c = '\r' || c = '\x0b' || c = '\x0c'

/-- JS `\w` character class: `[A-Za-z0-9_]`. -/
def isWordChar (c : Char) : Bool := c.isAlphanum || c = '_'

/-- The apostrophe character. -/
def quoteChar : Char := Char.ofNat 39

/-- The double-quote character. -/
def dquoteChar : Char := Char.ofNat 34

/-- The backtick character. -/
def btick : Char := Char.ofNat 96

/-- Left brace character. -/
def lbrace : Char := Char.ofNat 123

/-- Right brace character. -/
def rbrace : Char := Char.ofNat 125

/-- Is `c` one of the two JS quote characters `'` or `"` (class `['"]`)? -/
def isQuoteChar (c : Char) : Bool := c = quoteChar || c = dquoteChar

/-- Drop leading JS whitespace: the regex fragment `\s*` (greedy). -/
def dropWs (l : List Char) : List Char := l.dropWhile isJsWs

/-- The regex fragment `\s+`: require at least one whitespace char, consume all. -/
def wsPlus : List Char → Option (List Char)
  | [] => none
  | c :: rest => if isJsWs c then some (dropWs rest) else none

/-- Trim JS whitespace on both ends (JS `String.prototype.trim`, ASCII part). -/
def trimWsL (l : List Char) : List Char :=
  ((l.dropWhile isJsWs).reverse.dropWhile isJsWs).reverse

/-- String-level trim. -/
def jsTrim (s : String) : String := String.mk (trimWsL s.toList)

/-- Does `l` start with the literal `pat`? -/
def startsWithL : List Char → List Char → Bool
  | [], _ => true
  | _ :: _, [] => false
  | p :: ps, c :: cs => p = c && startsWithL ps cs

/-- Match the literal `pat` at the head of `l`; return the remainder. -/
def dropPrefixL : List Char → List Char → Option (List Char)
  | [], l => some l
  | _ :: _, [] => none
  | p :: ps, c :: cs => if p = c then dropPrefixL ps cs else none

/-- Does `l` end with the literal `pat`? -/
def endsWithL (pat l : List Char) : Bool := startsWithL pat.reverse l.reverse

/-- Does `l` contain `pat` as a contiguous sublist? (JS `String.includes`.) -/
def containsSubL (pat : List Char) : List Char → Bool
  | [] => startsWithL pat []
  | l@(_ :: rest) => startsWithL pat l || containsSubL pat rest

/-- String-level substring containment (JS `includes`). -/
def containsSub (s pat : String) : Bool := containsSubL pat.toList s.toList

/-- Split at the first occurrence of the literal `pat`: returns the text before
it and the remainder after it, or `none` when `pat` does not occur. -/
def breakOnL (pat : List Char) : List Char → Option (List Char × List Char)
  | [] => match dropPrefixL pat [] with
      | some after => some ([], after)
      | none => none
  | l@(c :: rest) =>
    match dropPrefixL pat l with
    | some after => some ([], after)
    | none =>
      match breakOnL pat rest with
      | some (before, after) => some (c :: before, after)
      | none => none

/-- Maximal run of word characters (`\w*`, greedy) and the remainder. -/
def spanWord (l : List Char) : List Char × List Char := l.span isWordChar

/-- Maximal run of non-quote characters (`[^'"]*`, greedy) and the remainder. -/
def spanNonQuote (l : List Char) : List Char × List Char :=
  l.span (fun c => !(isQuoteChar c))

/-- Maximal run of non-semicolon characters (`[^;]*`) and the remainder. -/
def spanNonSemi (l : List Char) : List Char × List Char := l.span (· ≠ ';')

/-- Maximal run of chars that are neither `=` nor `;` (`[^=;]*`). -/
def spanNonEqSemi (l : List Char) : List Char × List Char :=
  l.span (fun c => c ≠ '=' && c ≠ ';')

/-- Maximal run of non-`}` characters (`[^}]*`). -/
def spanNonRbrace (l : List Char) : List Char × List Char := l.span (· ≠ rbrace)

/-- Maximal run of chars that are neither `{` nor `}` (`[^{}]*`). -/
def spanNonBrace (l : List Char) : List Char × List Char :=
  l.span (fun c => c ≠ lbrace && c ≠ rbrace)

/-- Try the position matcher `m` at every suffix, left to right, end position
included: the leftmost-match rule of `RegExp.exec`. -/
def scanFirst (m : List Char → Option α) : List Char → Option α
  | [] => m []
  | l@(_ :: rest) =>
    match m l with
    | some a => some a
    | none => scanFirst m rest

/-- Repeatedly find the next match and resume after it (`exec` loop with
`lastIndex`, `g` flag).  Every matcher used returns a remainder that is a
strict suffix, so `fuel := length + 1` never runs out. -/
def scanAll (m : List Char → Option (α × List Char)) : Nat → List Char → List α
  | 0, _ => []
  | fuel + 1, l =>
    match scanFirst m l with
    | none => []
    | some (a, rest) => a :: scanAll m fuel rest

/-- Lazy closing-delimiter search: the regex fragment `([\s\S]*?)CLOSER` with a
continuation.  Tries each occurrence of `closer` left to right and keeps the
first one whose continuation matches; the captured group grows across rejected
closers, exactly as the backtracking engine lets a lazy group grow. -/
def lazyClose (closer : List Char) (cont : List Char → Option α) :
    Nat → List Char → Option (List Char × α)
  | 0, _ => none
  | fuel + 1, l =>
    match breakOnL closer l with
    | none => none
    | some (before, after) =>
      match cont after with
      | some a => some (before, a)
      | none =>
        match lazyClose closer cont fuel after with
        | some (more, a) => some (before ++ closer ++ more, a)
        | none => none

/-- JS object property assignment on a string-keyed object: update an existing
key in place (keeping its position) or append a new one. -/
def setAssoc (m : List (String × α)) (k : String) (v : α) : List (String × α) :=
  match m with
  | [] => [(k, v)]
  | (k', v') :: rest =>
    if k' = k then (k, v) :: rest else (k', v') :: setAssoc rest k v

/-- JS object property read. -/
def getAssoc (m : List (String × α)) (k : String) : Option α :=
  match m with
  | [] => none
  | (k', v') :: rest => if k' = k then some v' else getAssoc rest k

/-- JS `String.prototype.split` with a non-empty string separator: split at
each left-to-right, non-overlapping occurrence. -/
def jsSplitL (sep : List Char) : Nat → List Char → List (List Char)
  | 0, l => [l]
  | fuel + 1, l =>
    match breakOnL sep l with
    | none => [l]
    | some (before, after) => before :: jsSplitL sep fuel after

/-- String-level `split` (JS semantics; agrees with them for the non-empty
separators `","`, `"-"`, `"--"`, `"/"` used in the source). -/
def jsSplit (s sep : String) : List String :=
  (jsSplitL sep.toList (s.toList.length + 1) s.toList).map String.mk

/-- JS `String.prototype.toLowerCase` (ASCII fragment). -/
def lowerS (s : String) : String := String.mk (s.toList.map Char.toLower)

/-- Fold a list of items into a JS object, each item contributing at most one
property assignment (the shared shape of every map-building loop in the
source). -/
def foldSet (g : β → Option (String × α)) (init : List (String × α))
    (L : List β) : List (String × α) :=
  List.foldl
    (fun m b =>
      match g b with
      | none => m
      | some kv => setAssoc m kv.1 kv.2) init L

/-- The file system: a finite map from absolute path to UTF-8 contents. -/
abbrev FS := List (String × String)

/-- `fs.readFileSync(p, 'utf8')` as a partial read. -/
def fileOf (fs : FS) (p : String) : Option String := getAssoc fs p

/-- `fs.existsSync(p)`. -/
def existsSync (fs : FS) (p : String) : Bool := (fileOf fs p).isSome

/-- Helper for `pathDirname`: drop trailing slashes (working on the reverse). -/
def revDropSlashes : List Char → List Char
  | [] => []
  | c :: rest => if c = '/' then revDropSlashes rest else c :: rest

/-- Everything before the last `/` of the list, or `none` if there is none. -/
def beforeLastSlash : List Char → Option (List Char)
  | [] => none
  | c :: rest =>
    match beforeLastSlash rest with
    | some b => some (c :: b)
    | none => if c = '/' then some [] else none

/-- Node `path.dirname` (POSIX): strip trailing slashes, then cut at the last
slash; a path with no remaining slash yields `"/"` when rooted, else `"."`.
(The Node corner case `dirname("//a") = "//"` is not reproduced.) -/
def pathDirname (p : String) : String :=
  match p.toList with
  | [] => "."
  | c0 :: rest =>
    let stripped := (revDropSlashes (c0 :: rest).reverse).reverse
    match stripped with
    | [] => if c0 = '/' then "/" else "."
    | _ =>
      match beforeLastSlash stripped with
      | none => if c0 = '/' then "/" else "."
      | some [] => if c0 = '/' then "/" else "."
      | some b => String.mk b

/-- Normalize path segments: drop empty and `.` segments, let `..` pop. -/
def normSegs : List String → List String → List String
  | acc, [] => acc.reverse
  | acc, s :: rest =>
    if s = "" || s = "." then normSegs acc rest
    else if s = ".." then
      match acc with
      | [] => normSegs [] rest
      | _ :: t => normSegs t rest
    else normSegs (s :: acc) rest

/-- Node `path.resolve(dir, rel)` for the use in this repository, where `dir`
is an absolute POSIX path: an absolute `rel` wins, otherwise the two are
joined; the result is normalized. -/
def pathResolve (dir rel : String) : String :=
  let base := if startsWithL ['/'] rel.toList then rel else dir ++ "/" ++ rel
  "/" ++ String.intercalate "/" (normSegs [] (jsSplit base "/"))

/-- One entry of `docs.properties` (spec `PropertyDoc`).  `jsType` is the JS
`type` field (absent on interface-derived entries, which carry only
`tsType`). -/
structure PropertyDoc where
  description : String
  jsType : Option String
  required : Bool
  tsType : Option String
  defaultValue : Option String
deriving Repr, DecidableEq

/-- The record built by `extractComponentDocs` (spec `ComponentDocs`). -/
structure ComponentDocs where
  description : String
  selector : Option String
  template : Option String
  templateUrl : Option String
  properties : List (String × PropertyDoc)
  componentCode : Option String
deriving Repr, DecidableEq

/-- The empty accumulator `{ properties: {}, description: '' }`. -/
def emptyDocs : ComponentDocs :=
  { description := "", selector := none, template := none, templateUrl := none,
    properties := [], componentCode := none }

/-- JS `str.replace(/^\s*\*\s?/gm, '')`: at every line start (multiline `^`),
delete a whitespace run (which may span newlines), a literal `*`, and at most
one further whitespace character.  `leaderAt` matches the pattern at one
position and reports whether the last consumed character was a newline (which
makes the resumption point a line start again). -/
def leaderAt (l : List Char) : Option (List Char × Bool) :=
  match dropWs l with
  | c :: rest =>
    if c = '*' then
      match rest with
      | c2 :: rest2 =>
        if isJsWs c2 then some (rest2, c2 = '\n') else some (rest, false)
      | [] => some ([], false)
    else none
  | [] => none

/-- The global multiline replace loop for `/^\s*\*\s?/gm`; `bol` tracks whether
the current position is a line start. -/
def stripLeaders : Nat → Bool → List Char → List Char
  | 0, _, l => l
  | _, _, [] => []
  | fuel + 1, bol, l@(c :: rest) =>
    if bol then
      match leaderAt l with
      | some (rest', nl) => stripLeaders fuel nl rest'
      | none => c :: stripLeaders fuel (c = '\n') rest
    else c :: stripLeaders fuel (c = '\n') rest

/-- Comment-text cleanup used on every captured block comment:
`.replace(/^\s*\*\s?/gm, '').trim()`. -/
def cleanComment (s : String) : String :=
  jsTrim (String.mk (stripLeaders (s.toList.length + 1) true s.toList))

/-- JS `str.replace(pat, '')` with a global literal pattern: left-to-right,
non-overlapping, scanning the original string (a deletion never causes the
newly adjacent fragments to be rescanned). -/
def removeAllL (pat : List Char) : Nat → List Char → List Char
  | 0, l => l
  | _, [] => []
  | fuel + 1, l@(c :: rest) =>
    match dropPrefixL pat l with
    | some after => removeAllL pat fuel after
    | none => c :: removeAllL pat fuel rest

/-- String-level global literal deletion (`.replace(/@required/g, '')`). -/
def removeAll (s pat : String) : String :=
  String.mk (removeAllL pat.toList (s.toList.length + 1) s.toList)

/-- Continuation of the class-doc regex after the closing `*_/`:
`\s*(?:@Component|export\s+(?:default\s+)?(?:function|class|const))`. -/
def classDocCont (l : List Char) : Option Unit :=
  let l1 := dropWs l
  match dropPrefixL "@Component".toList l1 with
  | some _ => some ()
  | none =>
    match dropPrefixL "export".toList l1 with
    | none => none
    | some r =>
      match wsPlus r with
      | none => none
      | some r1 =>
        let kw : List Char → Bool := fun x =>
          (dropPrefixL "function".toList x).isSome ||
          (dropPrefixL "class".toList x).isSome ||
          (dropPrefixL "const".toList x).isSome
        match dropPrefixL "default".toList r1 with
        | some r2 =>
          match wsPlus r2 with
          | some r3 => if kw r3 then some () else if kw r1 then some () else none
          | none => if kw r1 then some () else none
        | none => if kw r1 then some () else none

/-- Source line 24:
`/\/\*\*\s*([\s\S]*?)\s*\*\/\s*(?:@Component|export\s+(?:default\s+)?(?:function|class|const))/`.
Returns the captured group 1 (with the surrounding `\s*` already stripped, as
the greedy/lazy split of the regex forces). -/
def classDocScan (content : List Char) : Option String :=
  scanFirst (fun l =>
    match dropPrefixL ['/', '*', '*'] l with
    | none => none
    | some rest =>
      match lazyClose ['*', '/'] classDocCont (rest.length + 1) rest with
      | none => none
      | some (raw, _) => some (String.mk (trimWsL raw))) content

/-- Generic scanner for `LABEL\s*['"]([^'"]+)['"]` (sources lines 30, 42, 229). -/
def quotedAfterScan (label : List Char) (content : List Char) : Option String :=
  scanFirst (fun l =>
    match dropPrefixL label l with
    | none => none
    | some r =>
      match dropWs r with
      | q :: r2 =>
        if isQuoteChar q then
          match spanNonQuote r2 with
          | ([], _) => none
          | (v, r3) =>
            match r3 with
            | q2 :: _ => if isQuoteChar q2 then some (String.mk v) else none
            | [] => none
        else none
      | [] => none) content

/-- Source line 30: `/selector:\s*['"]([^'"]+)['"]/`. -/
def selectorScan (content : List Char) : Option String :=
  quotedAfterScan "selector:".toList content

/-- Source line 42: `/templateUrl:\s*['"]([^'"]+)['"]/`. -/
def templateUrlScan (content : List Char) : Option String :=
  quotedAfterScan "templateUrl:".toList content

/-- Source line 36: `/template:\s*`([\s\S]*?)`/` — inline template between
backticks, lazily up to the first closing backtick. -/
def templateScan (content : List Char) : Option String :=
  scanFirst (fun l =>
    match dropPrefixL "template:".toList l with
    | none => none
    | some r =>
      match dropWs r with
      | c :: r2 =>
        if c = btick then
          match breakOnL [btick] r2 with
          | some (body, _) => some (String.mk body)
          | none => none
        else none
      | [] => none) content

/-- A match of the decorator-property regex (source line 52). -/
structure DecoratorMatch where
  rawDesc : String
  decorator : String
  name : String
deriving Repr, DecidableEq

/-- Continuation of the decorator-property regex after the closing `*_/`:
`\s*@(Input|Output)\(\)\s*(\w+)`. -/
def propDocCont (l : List Char) : Option ((String × String) × List Char) :=
  match dropWs l with
  | c :: r =>
    if c = '@' then
      let tryDec : String → Option ((String × String) × List Char) := fun dec =>
        match dropPrefixL (dec ++ "()").toList r with
        | some r2 =>
          match spanWord (dropWs r2) with
          | ([], _) => none
          | (w, rest) => some ((dec, String.mk w), rest)
        | none => none
      match tryDec "Input" with
      | some x => some x
      | none => tryDec "Output"
    else none
  | [] => none

/-- One position of source line 52:
`/\/\*\*\s*([\s\S]*?)\s*\*\/\s*@(Input|Output)\(\)\s*(\w+)/g`. -/
def propDocMatcher (l : List Char) : Option (DecoratorMatch × List Char) :=
  match dropPrefixL ['/', '*', '*'] l with
  | none => none
  | some rest =>
    match lazyClose ['*', '/'] propDocCont (rest.length + 1) rest with
    | none => none
    | some (raw, ((dec, name), rem)) =>
      some ({ rawDesc := String.mk (trimWsL raw), decorator := dec, name := name }, rem)

/-- All matches of the decorator-property regex, in `exec`-loop order. -/
def propDocMatches (content : List Char) : List DecoratorMatch :=
  scanAll propDocMatcher (content.length + 1) content

/-- Source lines 55-64: build the recorded property from one decorator match.
The `@required` check runs on the cleaned comment; the stored description has
every (left-to-right, non-overlapping) `@required` occurrence removed and is
trimmed again. -/
def mkDecoratorProp (m : DecoratorMatch) : PropertyDoc :=
  let cleaned := cleanComment m.rawDesc
  { description := jsTrim (removeAll cleaned "@required")
    jsType := some (lowerS m.decorator)
    required := containsSub cleaned "@required"
    tsType := none
    defaultValue := none }

/-- Source lines 52-65: the decorator-property scan, folded into `properties`. -/
def applyPropDocs (content : List Char) (d : ComponentDocs) : ComponentDocs :=
  let props := foldSet (fun x => some (x.name, mkDecoratorProp x))
    d.properties (propDocMatches content)
  { d with properties := props }

/-- Source line 68: `/interface\s+\w*Props\s*\{([\s\S]*?)\}/` — the greedy
`\w*` followed by the literal `Props` forces the identifier run to end in
`Props`; the lazy body extends to the first `}`. -/
def propsInterfaceScan (content : List Char) : Option (List Char) :=
  scanFirst (fun l =>
    match dropPrefixL "interface".toList l with
    | none => none
    | some r =>
      match wsPlus r with
      | none => none
      | some r1 =>
        match spanWord r1 with
        | (w, r2) =>
          if endsWithL "Props".toList w then
            match dropWs r2 with
            | c :: r3 =>
              if c = lbrace then (breakOnL [rbrace] r3).map (·.1) else none
            | [] => none
          else none) content

/-- A match of the interface-field regex (source line 71). -/
structure IfaceMatch where
  rawDesc : String
  name : String
  optMark : Bool
  rawType : String
deriving Repr, DecidableEq

/-- Continuation of the interface-field regex after the closing `*_/`:
`\s*(\w+)(\?)?:\s*([^;]+)`.  When the greedy `\s*` before the type leaves
nothing for `[^;]+`, the engine backtracks it by one character, so the capture
degenerates to a single whitespace character. -/
def ifacePropCont (l : List Char) : Option ((String × Bool × String) × List Char) :=
  match spanWord (dropWs l) with
  | ([], _) => none
  | (w, r) =>
    let afterColon : Option (Bool × List Char) :=
      match r with
      | '?' :: ':' :: r2 => some (true, r2)
      | ':' :: r2 => some (false, r2)
      | _ => none
    match afterColon with
    | none => none
    | some (opt, r2) =>
      let r3 := dropWs r2
      match spanNonSemi r3 with
      | ([], _) =>
        match (r2.takeWhile isJsWs).getLast? with
        | some c => some ((String.mk w, opt, String.mk [c]), r3)
        | none => none
      | (v, r4) => some ((String.mk w, opt, String.mk v), r4)

/-- One position of source line 71:
`/\/\*\*\s*([\s\S]*?)\s*\*\/\s*(\w+)(\?)?:\s*([^;]+)/g`. -/
def ifacePropMatcher (l : List Char) : Option (IfaceMatch × List Char) :=
  match dropPrefixL ['/', '*', '*'] l with
  | none => none
  | some rest =>
    match lazyClose ['*', '/'] ifacePropCont (rest.length + 1) rest with
    | none => none
    | some (raw, ((w, opt, ty), rem)) =>
      some ({ rawDesc := String.mk (trimWsL raw), name := w,
              optMark := opt, rawType := ty }, rem)

/-- All interface-field matches inside the `Props` interface body, if any. -/
def ifaceMatches (content : List Char) : List IfaceMatch :=
  match propsInterfaceScan content with
  | none => []
  | some body => scanAll ifacePropMatcher (body.length + 1) body

/-- Source lines 73-82: the property recorded for one interface field. -/
def mkIfaceProp (m : IfaceMatch) : PropertyDoc :=
  { description := cleanComment m.rawDesc
    jsType := none
    required := !m.optMark
    tsType := some (jsTrim m.rawType)
    defaultValue := none }

/-- Source lines 68-84: the interface scan, folded into `properties`
(overwriting any same-named entry from the decorator scan). -/
def applyInterfaceProps (content : List Char) (d : ComponentDocs) : ComponentDocs :=
  let props := foldSet (fun x => some (x.name, mkIfaceProp x))
    d.properties (ifaceMatches content)
  { d with properties := props }

/-- A match of the generic field-declaration regex (source line 87). -/
structure TypeMatch where
  name : String
  rawType : String
  rawDefault : Option String
deriving Repr, DecidableEq

/-- One position of source line 87:
`/(\w+)(?:\?)?:\s*([^=;]+)(?:\s*=\s*([^;]+))?;/g`.  The greedy `[^=;]+` stops
exactly at the first `=` or `;`; when it would be empty the `\s*` before it
backtracks by one whitespace character (same for the default-value group). -/
def typeMatcher (l : List Char) : Option (TypeMatch × List Char) :=
  match spanWord l with
  | ([], _) => none
  | (w, r) =>
    let afterColon : Option (List Char) :=
      match r with
      | '?' :: ':' :: r2 => some r2
      | ':' :: r2 => some r2
      | _ => none
    match afterColon with
    | none => none
    | some r2 =>
      let r3 := dropWs r2
      let tyRes : Option (String × List Char) :=
        match spanNonEqSemi r3 with
        | ([], _) =>
          match (r2.takeWhile isJsWs).getLast? with
          | some c => some (String.mk [c], r3)
          | none => none
        | (v, r4) => some (String.mk v, r4)
      match tyRes with
      | none => none
      | some (ty, r4) =>
        match r4 with
        | ';' :: r5 =>
          some ({ name := String.mk w, rawType := ty, rawDefault := none }, r5)
        | '=' :: r5 =>
          let r6 := dropWs r5
          let dvRes : Option (String × List Char) :=
            match spanNonSemi r6 with
            | ([], _) =>
              match (r5.takeWhile isJsWs).getLast? with
              | some c => some (String.mk [c], r6)
              | none => none
            | (v, r7) => some (String.mk v, r7)
          match dvRes with
          | none => none
          | some (dv, r7) =>
            match r7 with
            | ';' :: r8 =>
              some ({ name := String.mk w, rawType := ty, rawDefault := some dv }, r8)
            | _ => none
        | _ => none

/-- All matches of the field-declaration regex over the whole file. -/
def typeMatches (content : List Char) : List TypeMatch :=
  scanAll typeMatcher (content.length + 1) content

/-- Source lines 88-99: backfill `tsType` (always) and `defaultValue` (only
when its trimmed text is non-empty) of properties that already exist; never
creates a property. -/
def backfillVal (p : PropertyDoc) (tm : TypeMatch) : PropertyDoc :=
  let p1 := { p with tsType := some (jsTrim tm.rawType) }
  match tm.rawDefault with
  | some dvRaw =>
    let dv := jsTrim dvRaw
    if dv ≠ "" then { p1 with defaultValue := some dv } else p1
  | none => p1

/-- Source lines 88-99, one match: update an existing property in place. -/
def backfillStep (m : List (String × PropertyDoc)) (tm : TypeMatch) :
    List (String × PropertyDoc) :=
  match getAssoc m tm.name with
  | none => m
  | some p => setAssoc m tm.name (backfillVal p tm)

/-- Fold of `backfillStep` over all field-declaration matches. -/
def applyTypeBackfill (content : List Char) (d : ComponentDocs) : ComponentDocs :=
  let props := List.foldl backfillStep d.properties (typeMatches content)
  { d with properties := props }

/-- The tail `export\s+class\s+\w+` of the class-code regex (source line 102),
used as the continuation target of the lazy `[\s\S]*?`. -/
def exportClassTail (l : List Char) : Option (Unit × List Char) :=
  match dropPrefixL "export".toList l with
  | none => none
  | some r =>
    match wsPlus r with
    | none => none
    | some r1 =>
      match dropPrefixL "class".toList r1 with
      | none => none
      | some r2 =>
        match wsPlus r2 with
        | none => none
        | some r3 =>
          match spanWord r3 with
          | ([], _) => none
          | (_, r4) => some ((), r4)

/-- Source line 102: `/@Component[\s\S]*?export\s+class\s+\w+[\s\S]*?\n\}/` —
the whole matched text (ending in a newline and `}`) becomes
`componentCode`. -/
def classCodeScan (content : List Char) : Option String :=
  scanFirst (fun l =>
    match dropPrefixL "@Component".toList l with
    | none => none
    | some r =>
      match scanFirst exportClassTail r with
      | none => none
      | some ((), r2) =>
        match breakOnL ['\n', rbrace] r2 with
        | none => none
        | some (_, after) =>
          some (String.mk (l.take (l.length - after.length)))) content

/-- The head `export\s+(?:default\s+)?function\s+\w+` of the function-code
regex (source line 108). -/
def funcHead (l : List Char) : Option (List Char) :=
  match dropPrefixL "export".toList l with
  | none => none
  | some r =>
    match wsPlus r with
    | none => none
    | some r1 =>
      let afterFn : List Char → Option (List Char) := fun x =>
        match dropPrefixL "function".toList x with
        | none => none
        | some y =>
          match wsPlus y with
          | none => none
          | some y1 =>
            match spanWord y1 with
            | ([], _) => none
            | (_, y2) => some y2
      match dropPrefixL "default".toList r1 with
      | some r2 =>
        (match wsPlus r2 with
         | some r3 =>
           match afterFn r3 with
           | some z => some z
           | none => afterFn r1
         | none => afterFn r1)
      | none => afterFn r1

/-- Source line 108: `/export\s+(?:default\s+)?function\s+\w+[\s\S]*?\n\}/`. -/
def funcCodeScan (content : List Char) : Option String :=
  scanFirst (fun l =>
    match funcHead l with
    | none => none
    | some r2 =>
      match breakOnL ['\n', rbrace] r2 with
      | none => none
      | some (_, after) =>
        some (String.mk (l.take (l.length - after.length)))) content

/-- Source lines 24-27. -/
def applyClassDoc (content : List Char) (d : ComponentDocs) : ComponentDocs :=
  match classDocScan content with
  | some cap => { d with description := cleanComment cap }
  | none => d

/-- Source lines 30-33. -/
def applySelector (content : List Char) (d : ComponentDocs) : ComponentDocs :=
  match selectorScan content with
  | some s => { d with selector := some s }
  | none => d

/-- Source lines 36-39 (inline template, trimmed). -/
def applyTemplate (content : List Char) (d : ComponentDocs) : ComponentDocs :=
  match templateScan content with
  | some t => { d with template := some (jsTrim t) }
  | none => d

/-- Source lines 42-49: record `templateUrl`; resolve it against the component
file's directory; when the resolved file exists, its trimmed contents are
assigned to `template` (overwriting any inline template). -/
def applyTemplateUrl (fs : FS) (componentFilePath : String) (content : List Char)
    (d : ComponentDocs) : ComponentDocs :=
  match templateUrlScan content with
  | none => d
  | some url =>
    let d1 := { d with templateUrl := some url }
    let tp := pathResolve (pathDirname componentFilePath) url
    match fileOf fs tp with
    | some txt => { d1 with template := some (jsTrim txt) }
    | none => d1

/-- Source lines 101-111. -/
def applyComponentCode (content : List Char) (d : ComponentDocs) : ComponentDocs :=
  let d1 :=
    match classCodeScan content with
    | some code => { d with componentCode := some code }
    | none => d
  match funcCodeScan content with
  | some code => if d1.componentCode = none then { d1 with componentCode := some code } else d1
  | none => d1

/-- Source lines 11-117: `extractComponentDocs`.  A missing file yields `null`;
otherwise each heuristic is applied in source order over the file contents. -/
def extractComponentDocs (fs : FS) (componentFilePath : String) : Option ComponentDocs :=
  match fileOf fs componentFilePath with
  | none => none
  | some content =>
    let cs := content.toList
    some (applyComponentCode cs
      (applyTypeBackfill cs
        (applyInterfaceProps cs
          (applyPropDocs cs
            (applyTemplateUrl fs componentFilePath cs
              (applyTemplate cs
                (applySelector cs
                  (applyClassDoc cs emptyDocs))))))))

/-- One story in `examples.stories` (spec `StoryExample`): the reconstructed
source text and the raw (uncoerced) args map. -/
structure StoryExample where
  code : String
  args : List (String × String)
deriving Repr, DecidableEq

/-- The record built by `extractStoryExamples` (spec `StoryExamples`). -/
structure StoryExamples where
  stories : List (String × StoryExample)
  imports : List String
  meta : Option String
deriving Repr, DecidableEq

/-- One position of source line 136: `/^import\s+.*?;$/gm` minus the anchor
(the anchor is handled by the caller's line-start tracking).  `\s+` may consume
newlines; the lazy `.*?` cannot, and stops at the first `;` that sits at an
end of line (`$` with the `m` flag). -/
def importLineMatcher (l : List Char) : Option (String × List Char) :=
  match dropPrefixL "import".toList l with
  | none => none
  | some r =>
    match wsPlus r with
    | none => none
    | some r1 =>
      match lineLazySemi r1 with
      | none => none
      | some rest => some (String.mk (l.take (l.length - rest.length)), rest)
where
  /-- Consume up to the first `;` at an end of line without crossing a
  newline; return the remainder after the `;`. -/
  lineLazySemi : List Char → Option (List Char)
    | [] => none
    | c :: rest =>
      if c = ';' && (rest = [] || rest.head? = some '\n') then some rest
      else if c = '\n' then none
      else lineLazySemi rest

/-- The `exec` loop of source lines 136-139: `bol` tracks multiline `^`. -/
def importLinesGo : Nat → Bool → List Char → List String
  | 0, _, _ => []
  | _, _, [] => []
  | fuel + 1, bol, l@(c :: rest) =>
    if bol then
      match importLineMatcher l with
      | some (txt, rem) => txt :: importLinesGo fuel false rem
      | none => importLinesGo fuel (c = '\n') rest
    else importLinesGo fuel (c = '\n') rest

/-- Source lines 136-139: all verbatim import statements. -/
def importLines (content : List Char) : List String :=
  importLinesGo (content.length + 1) true content

/-- The tail `;?\s*export\s+default\s+meta` of the meta regex (source
line 142), tried after each candidate closing `}` (with the usual greedy
then-backtrack treatment of `;?`). -/
def metaTail (l : List Char) : Option (List Char) :=
  match l with
  | ';' :: rest =>
    (match metaTailCore rest with
     | some r => some r
     | none => metaTailCore l)
  | _ => metaTailCore l
where
  metaTailCore (x : List Char) : Option (List Char) :=
    match dropPrefixL "export".toList (dropWs x) with
    | none => none
    | some y =>
      match wsPlus y with
      | none => none
      | some y1 =>
        match dropPrefixL "default".toList y1 with
        | none => none
        | some y2 =>
          match wsPlus y2 with
          | none => none
          | some y3 => dropPrefixL "meta".toList y3

/-- One position of source line 142:
`/const\s+meta[^=]*=\s*\{[\s\S]*?\};?\s*export\s+default\s+meta/` — the whole
matched text is kept (`match[0]`). -/
def metaMatcher (l : List Char) : Option String :=
  match dropPrefixL "const".toList l with
  | none => none
  | some r =>
    match wsPlus r with
    | none => none
    | some r1 =>
      match dropPrefixL "meta".toList r1 with
      | none => none
      | some r2 =>
        match breakOnL ['='] r2 with
        | none => none
        | some (_, r3) =>
          match dropWs r3 with
          | c :: r5 =>
            if c = lbrace then
              match lazyClose [rbrace] metaTail (r5.length + 1) r5 with
              | none => none
              | some (_, rest) => some (String.mk (l.take (l.length - rest.length)))
            else none
          | [] => none

/-- One position of source line 146:
`/export\s+default\s+\{[\s\S]*?\}\s*(?:as|;)/`. -/
def altMetaMatcher (l : List Char) : Option String :=
  match dropPrefixL "export".toList l with
  | none => none
  | some r =>
    match wsPlus r with
    | none => none
    | some r1 =>
      match dropPrefixL "default".toList r1 with
      | none => none
      | some r2 =>
        match wsPlus r2 with
        | none => none
        | some r3 =>
          match r3 with
          | c :: r4 =>
            if c = lbrace then
              match lazyClose [rbrace] altMetaTail (r4.length + 1) r4 with
              | none => none
              | some (_, rest) => some (String.mk (l.take (l.length - rest.length)))
            else none
          | [] => none
where
  /-- `\s*(?:as|;)` after a candidate `}`. -/
  altMetaTail (x : List Char) : Option (List Char) :=
    let x1 := dropWs x
    match dropPrefixL "as".toList x1 with
    | some rest => some rest
    | none =>
      match x1 with
      | ';' :: rest => some rest
      | _ => none

/-- One position of source line 153:
`/export\s+const\s+(\w+)(?::\s*\w+)?\s*=\s*\{([\s\S]*?)\};/g` — yields the
story name and the lazily captured body (up to the first `};`). -/
def storyMatcher (l : List Char) : Option ((String × String) × List Char) :=
  match dropPrefixL "export".toList l with
  | none => none
  | some r =>
    match wsPlus r with
    | none => none
    | some r1 =>
      match dropPrefixL "const".toList r1 with
      | none => none
      | some r2 =>
        match wsPlus r2 with
        | none => none
        | some r3 =>
          match spanWord r3 with
          | ([], _) => none
          | (name, r4) =>
            let afterColon : Option (List Char) :=
              match r4 with
              | ':' :: r5 =>
                (match spanWord (dropWs r5) with
                 | ([], _) => none
                 | (_, r6) => some r6)
              | _ => some r4
            match afterColon with
            | none => none
            | some r7 =>
              match dropWs r7 with
              | c :: r8 =>
                if c = '=' then
                  match dropWs r8 with
                  | b :: r9 =>
                    if b = lbrace then
                      match breakOnL [rbrace, ';'] r9 with
                      | none => none
                      | some (body, rest) =>
                        some ((String.mk name, String.mk body), rest)
                    else none
                  | [] => none
                else none
              | [] => none

/-- All story-export matches, in `exec`-loop order. -/
def storyMatches (content : List Char) : List (String × String) :=
  scanAll storyMatcher (content.length + 1) content

/-- Source line 159: `/args:\s*\{([\s\S]*?)\}/` inside a story body. -/
def argsBlockScan (body : List Char) : Option (List Char) :=
  scanFirst (fun l =>
    match dropPrefixL "args:".toList l with
    | none => none
    | some r =>
      match dropWs r with
      | c :: r2 =>
        if c = lbrace then (breakOnL [rbrace] r2).map (·.1) else none
      | [] => none) body

/-- Source line 168: `.replace(/,\s*$/, '')` — delete from the leftmost comma
that is followed only by whitespace up to the end. -/
def stripTrailCommaL : List Char → List Char
  | [] => []
  | c :: rest =>
    if c = ',' && rest.all isJsWs then [] else c :: stripTrailCommaL rest

/-- String-level form of the trailing-comma strip. -/
def stripTrailingComma (s : String) : String := String.mk (stripTrailCommaL s.toList)

/-- Source lines 165-169 (and 247-249): split one comma fragment at its first
colon; the colon must not be at index 0 and the trimmed key must be
non-empty.  Returns the key and the raw text after the colon. -/
def argFragKV (line : String) : Option (String × String) :=
  match line.toList.findIdx? (· = ':') with
  | none => none
  | some i =>
    if i = 0 then none
    else
      let key := jsTrim (String.mk (line.toList.take i))
      if key = "" then none else some (key, String.mk (line.toList.drop (i + 1)))

/-- Source lines 159-172: the raw args map of one story body (values trimmed,
trailing comma stripped, no coercion). -/
def rawArgsOf (body : String) : List (String × String) :=
  match argsBlockScan body.toList with
  | none => []
  | some inner =>
    foldSet
      (fun line => (argFragKV line).map
        (fun kv => (kv.1, stripTrailingComma (jsTrim kv.2))))
      [] (jsSplit (String.mk inner) ",")

/-- Source lines 174-177: the stored `StoryExample` for one match. -/
def mkStoryExample (name body : String) : StoryExample :=
  { code := "export const " ++ name ++ " = \x7b" ++ body ++ "\x7d;"
    args := rawArgsOf body }

/-- Source lines 122-184: `extractStoryExamples`. -/
def extractStoryExamples (fs : FS) (storyFilePath : String) : Option StoryExamples :=
  match fileOf fs storyFilePath with
  | none => none
  | some content =>
    let cs := content.toList
    let meta :=
      match scanFirst metaMatcher cs with
      | some m => some m
      | none => scanFirst altMetaMatcher cs
    let stories := foldSet
      (fun x => some (x.1, mkStoryExample x.1 x.2)) [] (storyMatches cs)
    some { stories := stories, imports := importLines cs, meta := meta }

/-- A JS exact rational or a signed infinity; `Number(..)` results are kept
exact (IEEE-754 rounding is not modelled — no claim depends on it). -/
inductive JSNum where
  | rat (q : ℚ)
  | inf (neg : Bool)
deriving Repr, DecidableEq

/-- A JS value as stored in the coerced args map. -/
inductive JSVal where
  | vStr (s : String)
  | vBool (b : Bool)
  | vNum (n : JSNum)
deriving Repr, DecidableEq

/-- Hexadecimal digit test. -/
def isHexDigit (c : Char) : Bool :=
  c.isDigit || ('a' ≤ c && c ≤ 'f') || ('A' ≤ c && c ≤ 'F')

/-- Octal digit test. -/
def isOctDigit (c : Char) : Bool := '0' ≤ c && c ≤ '7'

/-- Binary digit test. -/
def isBinDigit (c : Char) : Bool := c = '0' || c = '1'

/-- Value of one digit (decimal or hex). -/
def digitVal (c : Char) : Nat :=
  if c.isDigit then c.toNat - 48
  else if 'a' ≤ c && c ≤ 'f' then c.toNat - 87
  else if 'A' ≤ c && c ≤ 'F' then c.toNat - 55
  else 0

/-- Value of a digit run in the given base. -/
def digitsVal (base : Nat) (l : List Char) : Nat :=
  l.foldl (fun a c => a * base + digitVal c) 0

/-- Scale a mantissa by the exponent part. -/
def applyExp (mant : ℚ) (neg : Bool) (d : Nat) : ℚ :=
  if neg then mant / ((10 : ℚ) ^ d) else mant * ((10 : ℚ) ^ d)

/-- Optional exponent part `[eE][+-]?Digits` which must end the string. -/
def parseExpTail (mant : ℚ) : List Char → Option ℚ
  | [] => some mant
  | c :: r =>
    if c = 'e' || c = 'E' then
      let sd : Bool × List Char :=
        match r with
        | '+' :: t => (false, t)
        | '-' :: t => (true, t)
        | _ => (false, r)
      match sd.2.span Char.isDigit with
      | ([], _) => none
      | (ds, r3) => if r3 = [] then some (applyExp mant sd.1 (digitsVal 10 ds)) else none
    else none

/-- Unsigned `StrDecimalLiteral`: `Digits ['.' Digits?] Exp?` or `'.' Digits
Exp?`, consuming the whole string. -/
def parseDec (l : List Char) : Option ℚ :=
  match l.span Char.isDigit with
  | (intD, r1) =>
    match r1 with
    | '.' :: r2 =>
      match r2.span Char.isDigit with
      | (fracD, r3) =>
        if intD = [] && fracD = [] then none
        else
          parseExpTail
            ((digitsVal 10 intD : ℚ) + (digitsVal 10 fracD : ℚ) / ((10 : ℚ) ^ fracD.length))
            r3
    | _ =>
      if intD = [] then none
      else parseExpTail (digitsVal 10 intD : ℚ) r1

/-- Signed decimal or `Infinity`. -/
def decSigned (t : List Char) : Option JSNum :=
  let sr : Bool × List Char :=
    match t with
    | '+' :: r => (false, r)
    | '-' :: r => (true, r)
    | _ => (false, t)
  match dropPrefixL "Infinity".toList sr.2 with
  | some [] => some (.inf sr.1)
  | _ =>
    match parseDec sr.2 with
    | none => none
    | some q => some (.rat (if sr.1 then -q else q))

/-- JS `ToNumber` on a string (`isNaN(v)` is `(jsToNumber v).isNone` and
`Number(v)` is its value): trim, empty means `0`, `0x`/`0o`/`0b` radix
literals (unsigned), otherwise a signed decimal or `Infinity`. -/
def jsToNumber (s : String) : Option JSNum :=
  let t := trimWsL s.toList
  match t with
  | [] => some (.rat 0)
  | '0' :: x :: rest =>
    if x = 'x' || x = 'X' then
      if rest ≠ [] && rest.all isHexDigit then some (.rat (digitsVal 16 rest)) else none
    else if x = 'o' || x = 'O' then
      if rest ≠ [] && rest.all isOctDigit then some (.rat (digitsVal 8 rest)) else none
    else if x = 'b' || x = 'B' then
      if rest ≠ [] && rest.all isBinDigit then some (.rat (digitsVal 2 rest)) else none
    else decSigned t
  | _ => decSigned t

/-- Source line 250: `.replace(/^['"]|['"]$/g, '')` — strip one leading and
one trailing quote character, each independently, without overlap. -/
def stripQuotesBoth (s : String) : String :=
  let l := s.toList
  let l1 :=
    match l with
    | c :: rest => if isQuoteChar c then rest else l
    | [] => []
  match l1.reverse with
  | c :: restRev => if isQuoteChar c then String.mk restRev.reverse else String.mk l1
  | [] => String.mk l1

/-- Source lines 250-253: the value-coercion chain of the orchestrator: trim,
strip a trailing comma, strip surrounding quotes, then map `'true'`/`'false'`
to booleans and any non-empty string accepted by `ToNumber` to a number;
everything else stays a string. -/
def coerceArgValue (raw : String) : JSVal :=
  let v := stripQuotesBoth (stripTrailingComma (jsTrim raw))
  if v = "true" then .vBool true
  else if v = "false" then .vBool false
  else
    match jsToNumber v with
    | some n => if v = "" then .vStr v else .vNum n
    | none => .vStr v

/-- The record built by `parseStoryFile` (spec `StoryData`).  An `argTypes`
entry `{ control: c }` is modelled by its control string. -/
structure StoryData where
  id : String
  filePath : String
  component : Option String
  argTypes : Option (List (String × String))
  args : Option (List (String × JSVal))
  componentDocs : Option ComponentDocs
deriving Repr, DecidableEq

/-- Source line 197: `/component:\s*(\w+)/`. -/
def componentScan (content : List Char) : Option String :=
  scanFirst (fun l =>
    match dropPrefixL "component:".toList l with
    | none => none
    | some r =>
      match spanWord (dropWs r) with
      | ([], _) => none
      | (w, _) => some (String.mk w)) content

/-- Source line 202: the dynamic regex
`import\s*\{[^}]*NAME[^}]*\}\s*from\s*['"]([^'"]+)['"]` — since `[^}]` never
matches `}`, the closing brace is the first `}` after `import\s*{`, and `NAME`
(a `\w+` string, hence free of metacharacters) must occur inside it. -/
def importFromScan (name : String) (content : List Char) : Option String :=
  scanFirst (fun l =>
    match dropPrefixL "import".toList l with
    | none => none
    | some r =>
      match dropWs r with
      | c :: r2 =>
        if c = lbrace then
          match breakOnL [rbrace] r2 with
          | none => none
          | some (inside, r3) =>
            if containsSubL name.toList inside then
              match dropPrefixL "from".toList (dropWs r3) with
              | none => none
              | some r5 =>
                match dropWs r5 with
                | q :: r7 =>
                  if isQuoteChar q then
                    match spanNonQuote r7 with
                    | ([], _) => none
                    | (v, r8) =>
                      match r8 with
                      | q2 :: _ => if isQuoteChar q2 then some (String.mk v) else none
                      | [] => none
                  else none
                | [] => none
            else none
        else none
      | [] => none) content

/-- Source lines 208-210: the candidate component path for one extension. -/
def candidatePath (base ext : String) : String :=
  if endsWithL ext.toList base.toList then base else base ++ ext

/-- Source line 208: the fixed extension preference order. -/
def extensionList : List String := [".ts", ".tsx", ".js", ".jsx", ".vue", ".svelte"]

/-- Source lines 209-218: the first candidate that exists (the loop `break`s on
the first existing file whether or not its docs extraction succeeds). -/
def firstCandidate (fs : FS) (base : String) : Option String :=
  (extensionList.map (candidatePath base)).find? (existsSync fs)

/-- The tail `,?\s*(?:\/\/|args:|tags:|$)` of the argTypes regex (source
line 223); without the `m` flag, `$` is the end of the whole content. -/
def argTypesCont (l : List Char) : Option Unit :=
  match l with
  | ',' :: rest =>
    (match argTypesCore rest with
     | some u => some u
     | none => argTypesCore l)
  | _ => argTypesCore l
where
  argTypesCore (x : List Char) : Option Unit :=
    let x1 := dropWs x
    if startsWithL ['/', '/'] x1 || startsWithL "args:".toList x1 ||
        startsWithL "tags:".toList x1 || x1 = [] then some () else none

/-- Source line 223: `/argTypes:\s*\{([\s\S]*?)\},?\s*(?:\/\/|args:|tags:|$)/`. -/
def argTypesBlockScan (content : List Char) : Option (List Char) :=
  scanFirst (fun l =>
    match dropPrefixL "argTypes:".toList l with
    | none => none
    | some r =>
      match dropWs r with
      | c :: r2 =>
        if c = lbrace then
          match lazyClose [rbrace] argTypesCont (r2.length + 1) r2 with
          | none => none
          | some (grp, _) => some grp
        else none
      | [] => none) content

/-- One position of source line 226: `/(\w+):\s*\{([^{}]*)\}/g`. -/
def argTypePropMatcher (l : List Char) : Option ((String × String) × List Char) :=
  match spanWord l with
  | ([], _) => none
  | (w, r) =>
    match r with
    | ':' :: r2 =>
      (match dropWs r2 with
       | c :: r4 =>
         if c = lbrace then
           match spanNonBrace r4 with
           | (inner, c2 :: r6) =>
             if c2 = rbrace then some ((String.mk w, String.mk inner), r6) else none
           | (_, []) => none
         else none
       | [] => none)
    | _ => none

/-- Source lines 222-234: the `argTypes` map; present (possibly empty) exactly
when the block regex matches; each property needs a `control` string
(source line 229). -/
def argTypesOf (content : List Char) : Option (List (String × String)) :=
  match argTypesBlockScan content with
  | none => none
  | some grp =>
    some (foldSet
      (fun x => (quotedAfterScan "control:".toList x.2.toList).map (fun c => (x.1, c)))
      [] (scanAll argTypePropMatcher (grp.length + 1) grp))

/-- Source line 239: one kebab part mapped by
`p.charAt(0).toUpperCase() + p.slice(1).toLowerCase()` (ASCII case maps; all
inputs here are ASCII). -/
def capWordJs (p : String) : String :=
  match p.toList with
  | [] => ""
  | c :: rest => String.mk (c.toUpper :: rest.map Char.toLower)

/-- Source line 239: the derived PascalCase export name of a kebab-case story
name segment. -/
def pascalOf (storyName : String) : String :=
  String.join ((jsSplit storyName "-").map capWordJs)

/-- The tail `\s*\{([^}]+)\}` of the per-story args regex after `args:`
(source line 240). -/
def storyArgsTail (l : List Char) : Option String :=
  match dropWs l with
  | c :: r =>
    if c = lbrace then
      match spanNonRbrace r with
      | ([], _) => none
      | (body, c2 :: _) => if c2 = rbrace then some (String.mk body) else none
      | (_, []) => none
    else none
  | [] => none

/-- The fragment `[^}]*args:\s*\{([^}]+)\}` of the per-story args regex: the
greedy `[^}]*` cannot cross a `}` and backtracks from the right, so the last
`args:` occurrence in the brace-free run wins. -/
def storyArgsInner : Nat → List Char → Option String
  | 0, _ => none
  | _, [] => none
  | fuel + 1, l@(c :: rest) =>
    if c = rbrace then none
    else
      let here : Option String :=
        match dropPrefixL "args:".toList l with
        | some after => storyArgsTail after
        | none => none
      match storyArgsInner fuel rest with
      | some s => some s
      | none => here

/-- One position of source line 240: the dynamic regex
`export\s+const\s+NAME[^=]*=\s*\{[^}]*args:\s*\{([^}]+)\}` with the derived
PascalCase name inserted as a literal.  For a name made of word characters —
every kebab-case story id, and every input of the theorems below — the splice
is a literal and this matcher is exact.  A name with regex metacharacters
either makes the assembled pattern invalid (the constructor throws: that path
is modelled separately by `ecmaPatternValid` and never reaches this matcher)
or valid but non-literal (e.g. `.` as a wildcard), whose changed matching
semantics are not modelled. -/
def storyArgsMatcher (pn : List Char) (l : List Char) : Option String :=
  match dropPrefixL "export".toList l with
  | none => none
  | some r =>
    match wsPlus r with
    | none => none
    | some r1 =>
      match dropPrefixL "const".toList r1 with
      | none => none
      | some r2 =>
        match wsPlus r2 with
        | none => none
        | some r3 =>
          match dropPrefixL pn r3 with
          | none => none
          | some r4 =>
            match breakOnL ['='] r4 with
            | none => none
            | some (_, r5) =>
              match dropWs r5 with
              | c :: r7 =>
                if c = lbrace then storyArgsInner (r7.length + 1) r7 else none
              | [] => none

/-- Source lines 240-241: the captured per-story args body, if any. -/
def storyArgsScan (content : List Char) (pn : String) : Option String :=
  scanFirst (storyArgsMatcher pn.toList) content

/-- Body of a character class after `[`: any characters (escapes consume the
following character) up to the first unescaped `]`; reaching the end of the
pattern first is a syntax error.  An immediate `]` closes an empty class, as
in ECMAScript. -/
def reClass : Nat → List Char → Option (List Char)
  | 0, _ => none
  | _, [] => none
  | fuel + 1, c :: rest =>
    if c = ']' then some rest
    else if c = '\\' then
      match rest with
      | [] => none
      | _ :: rest2 => reClass fuel rest2
    else reClass fuel rest

/-- Shape of a braced quantifier after `{`: `Digits (, Digits?)? }`; returns
the bounds and the remainder, or `none` when the text is not of that shape
(in which case the `{` is an ordinary pattern character, as in Annex B). -/
def reBraced (l : List Char) : Option ((Nat × Option Nat) × List Char) :=
  match l.span Char.isDigit with
  | ([], _) => none
  | (d1, r1) =>
    match r1 with
    | '}' :: r2 => some ((digitsVal 10 d1, some (digitsVal 10 d1)), r2)
    | ',' :: r2 =>
      (match r2.span Char.isDigit with
       | ([], r3) =>
         match r3 with
         | '}' :: r4 => some ((digitsVal 10 d1, none), r4)
         | _ => none
       | (d2, r3) =>
         match r3 with
         | '}' :: r4 => some ((digitsVal 10 d1, some (digitsVal 10 d2)), r4)
         | _ => none)
    | _ => none

/-- Header of a group after `(`: plain capture, `?:`, lookahead `?=`/`?!`
(quantifiable), lookbehind `?<=`/`?<!` (not quantifiable), or a named group
`?<name>`; any other `?` form is a syntax error.  Returns whether the group
may carry a quantifier and the remainder. -/
def groupHeader (l : List Char) : Option (Bool × List Char) :=
  match l with
  | '?' :: rest =>
    (match rest with
     | ':' :: r2 => some (true, r2)
     | '=' :: r2 => some (true, r2)
     | '!' :: r2 => some (true, r2)
     | '<' :: r2 =>
       (match r2 with
        | '=' :: r3 => some (false, r3)
        | '!' :: r3 => some (false, r3)
        | _ =>
          match spanWord r2 with
          | ([], _) => none
          | (_, r3) =>
            match r3 with
            | '>' :: r4 => some (true, r4)
            | _ => none)
     | _ => none)
  | _ => some (true, l)

/-- Term-sequence validator for an ECMAScript (Annex B, non-unicode) pattern:
consumes terms until an unconsumed `)` or the end of the pattern, tracking in
`lastAtom` whether the previous term may carry a quantifier.  Groups recurse
and must find their closing `)`; a quantifier with nothing to repeat, an
unterminated class or group, a trailing backslash, and a `{n,m}` quantifier
with `m < n` are errors.  Lone `]`, `}`, and non-quantifier `{` are ordinary
characters (Annex B).  Class ranges are not order-checked and `\b`/`\B` are
treated as quantifiable: neither corner is reachable from the patterns this
repository assembles (their fixed parts contain no `-`, and the spliced
kebab-derived name cannot contain `-` either). -/
def reTerms : Nat → Bool → List Char → Option (List Char)
  | 0, _, _ => none
  | _, _, [] => some []
  | fuel + 1, lastAtom, l@(c :: rest) =>
    if c = ')' then some l
    else if c = '|' then reTerms fuel false rest
    else if c = '^' || c = '$' then reTerms fuel false rest
    else if c = '\\' then
      match rest with
      | [] => none
      | _ :: rest2 => reTerms fuel true rest2
    else if c = '[' then
      match reClass (rest.length + 1) rest with
      | none => none
      | some r2 => reTerms fuel true r2
    else if c = '*' || c = '+' || c = '?' then
      if lastAtom then
        match rest with
        | '?' :: r2 => reTerms fuel false r2
        | _ => reTerms fuel false rest
      else none
    else if c = lbrace then
      match reBraced rest with
      | some ((lo, hi), r2) =>
        if lastAtom then
          match hi with
          | some h =>
            if lo ≤ h then
              match r2 with
              | '?' :: r3 => reTerms fuel false r3
              | _ => reTerms fuel false r2
            else none
          | none =>
            match r2 with
            | '?' :: r3 => reTerms fuel false r3
            | _ => reTerms fuel false r2
        else reTerms fuel true rest
      | none => reTerms fuel true rest
    else if c = '(' then
      match groupHeader rest with
      | none => none
      | some (quant, r2) =>
        match reTerms fuel false r2 with
        | none => none
        | some r3 =>
          match r3 with
          | c2 :: r4 => if c2 = ')' then reTerms fuel quant r4 else none
          | [] => none
    else reTerms fuel true rest

/-- Does the host `new RegExp` constructor accept this pattern text?  Models
the `SyntaxError` behaviour of the engine on the dynamically assembled
pattern of source line 240 (invalid pattern — unmatched `(` or `)`,
unterminated class, trailing backslash, bad quantifier — throws, and the
outer `catch` of `parseStoryFile` turns that into `null`). -/
def ecmaPatternValid (pat : String) : Bool :=
  match reTerms (pat.toList.length + 1) false pat.toList with
  | some [] => true
  | some (_ :: _) => false
  | none => false

/-- The pattern text assembled at source line 240:
`export\s+const\s+` ++ name ++ `[^=]*=\s*\{[^}]*args:\s*\{([^}]+)\}`. -/
def storyPatternText (pn : String) : String :=
  "export\\s+const\\s+" ++ pn ++
    "[^=]*=\\s*\\\x7b[^\x7d]*args:\\s*\\\x7b([^\x7d]+)\\\x7d"

/-- Source lines 244-256: the coerced args map built from the captured body. -/
def parseArgsFinal (body : String) : List (String × JSVal) :=
  foldSet
    (fun line => (argFragKV line).map (fun kv => (kv.1, coerceArgValue kv.2)))
    [] (jsSplit body ",")

/-- Source lines 196-220: locate the component reference, resolve its import,
probe extensions, and attach the extracted docs of the first existing
candidate (if its extraction succeeds). -/
def sdApplyComponent (fs : FS) (filePath : String) (cs : List Char)
    (sd : StoryData) : StoryData :=
  match componentScan cs with
  | none => sd
  | some cname =>
    let sdA := { sd with component := some cname }
    match importFromScan cname cs with
    | none => sdA
    | some rel =>
      match firstCandidate fs (pathResolve (pathDirname filePath) rel) with
      | none => sdA
      | some full =>
        match extractComponentDocs fs full with
        | some docs => { sdA with componentDocs := some docs }
        | none => sdA

/-- Source lines 222-234: attach the `argTypes` map when its block matches. -/
def sdApplyArgTypes (cs : List Char) (sd : StoryData) : StoryData :=
  match argTypesOf cs with
  | none => sd
  | some m => { sd with argTypes := some m }

/-- Source lines 236-258: derive the export name from the story id (skipping a
falsy or `docs` segment); building the per-story pattern at line 240 throws
when the assembled text is not a valid pattern — modelled as `none`, which the
outer `catch` of `parseStoryFile` turns into `null` — and otherwise the
coerced per-story args are attached on a match. -/
def sdApplyArgs (cs : List Char) (storyId : String) (sd : StoryData) :
    Option StoryData :=
  match (jsSplit storyId "--").get? 1 with
  | none => some sd
  | some sn =>
    if sn = "" || sn = "docs" then some sd
    else
      if ecmaPatternValid (storyPatternText (pascalOf sn)) then
        match storyArgsScan cs (pascalOf sn) with
        | none => some sd
        | some body => some { sd with args := some (parseArgsFinal body) }
      else none

/-- Source lines 189-264: `parseStoryFile` (the `projectDir` parameter is
unused, as in the source).  The outer `try`/`catch` (lines 190/261) returns
`null` when the file is missing or when the one throwing step — the
`new RegExp` of line 240 on an invalid assembled pattern — fires; no
exception ever reaches the caller. -/
def parseStoryFile (fs : FS) (filePath storyId _projectDir : String) : Option StoryData :=
  match fileOf fs filePath with
  | none => none
  | some content =>
    let cs := content.toList
    let sd0 : StoryData :=
      { id := storyId, filePath := filePath, component := none,
        argTypes := none, args := none, componentDocs := none }
    sdApplyArgs cs storyId (sdApplyArgTypes cs (sdApplyComponent fs filePath cs sd0))

/-- String interpolation `${value}` of a stored JS value (source line 286).
Integer numbers print exactly; the shortest-double printing of non-integer JS
numbers is not modelled (no claim depends on it). -/
def jsValToString : JSVal → String
  | .vStr s => s
  | .vBool true => "true"
  | .vBool false => "false"
  | .vNum (.inf neg) => if neg then "-Infinity" else "Infinity"
  | .vNum (.rat q) =>
    if q.den = 1 then
      (if q.num < 0 then "-" ++ toString q.num.natAbs else toString q.num.natAbs)
    else toString q

/-- The apostrophe as a one-character string. -/
def quoteS : String := String.mk [quoteChar]

/-- The double quote as a one-character string. -/
def dquoteS : String := String.mk [dquoteChar]

/-- Source lines 272-287: rendering of one attribute, in source order:
`true`/`'true'` and `false`/`'false'` get the boolean binding; a string
starting with a quote is emitted verbatim; any other string is wrapped in
plain quotes; any non-string value gets the expression binding. -/
def renderAttr (framework : String) (k : String) (v : JSVal) : String :=
  if v = .vStr "true" || v = .vBool true then
    if framework = "angular" then "[" ++ k ++ "]=" ++ dquoteS ++ "true" ++ dquoteS
    else k ++ "=\x7btrue\x7d"
  else if v = .vStr "false" || v = .vBool false then
    if framework = "angular" then "[" ++ k ++ "]=" ++ dquoteS ++ "false" ++ dquoteS
    else k ++ "=\x7bfalse\x7d"
  else
    match v with
    | .vStr s =>
      if startsWithL [quoteChar] s.toList || startsWithL [dquoteChar] s.toList then
        k ++ "=" ++ s
      else k ++ "=" ++ dquoteS ++ s ++ dquoteS
    | _ =>
      let s := jsValToString v
      if framework = "angular" then "[" ++ k ++ "]=" ++ dquoteS ++ s ++ dquoteS
      else k ++ "=\x7b" ++ s ++ "\x7d"

/-- Source lines 269-291: `generateUsageExample`.  A falsy selector (absent or
empty) yields `null`; otherwise the attribute lines are joined and wrapped in
the comment and the selector tags. -/
def generateUsageExample (selector : Option String) (args : List (String × JSVal))
    (storyName : String) (framework : String) : Option String :=
  match selector with
  | none => none
  | some sel =>
    if sel = "" then none
    else
      let attrs := String.intercalate "\n    "
        (args.map (fun kv => renderAttr framework kv.1 kv.2))
      some ("<!-- " ++ storyName ++ " Example -->\n<" ++ sel ++ "\n    " ++ attrs
        ++ ">\n</" ++ sel ++ ">")

/-! Concrete inputs used by witnesses and counterexamples. -/

/-- A default `StoryData` used only to name computed results. -/
def sdDefault : StoryData :=
  { id := "", filePath := "", component := none, argTypes := none,
    args := none, componentDocs := none }

/-- A component file whose property comment `@requi@requiredred` recomposes a
literal `@required` when the (non-overlapping) token deletion splices the
surrounding fragments back together. -/
def fsRecompose : FS :=
  [("/c/btn.ts", "/**\n * @requi@requiredred\n */\n@Input() label;\n")]

/-- A component file with an ordinary `@required` marker. -/
def contentRequired : String := "/**\n * The label. @required\n */\n@Input() label;\n"

/-- File system holding `contentRequired`. -/
def fsRequired : FS := [("/c/btn.ts", contentRequired)]

/-- The single decorator match of `contentRequired`. -/
def mRequired : DecoratorMatch :=
  { rawDesc := "* The label. @required", decorator := "Input", name := "label" }

/-- A component file with a `templateUrl` whose target exists. -/
def contentTU : String := "templateUrl: './x.html'\n"

/-- File system holding `contentTU` and the referenced template. -/
def fsTemplateUrl : FS := [("/c/a.ts", contentTU), ("/c/x.html", " <b>hi</b> ")]

/-- A component file with both an inline template and a `templateUrl` whose
target exists. -/
def contentBoth : String := "template: `<i>in</i>`,\ntemplateUrl: './x.html'\n"

/-- File system holding `contentBoth` and the referenced template. -/
def fsBothTemplates : FS :=
  [("/c/a.ts", contentBoth), ("/c/x.html", "<b>ext</b>")]

/-- A story file with one component import and one story export. -/
def storyFileA : String :=
  "import \x7b Button \x7d from './button.component';\n\nexport const Primary = \x7b\n  args: \x7b\n    count: 42,\n    label: 'Button',\n  \x7d,\n\x7d;\n"

/-- File system holding `storyFileA` only (no component file exists). -/
def fsStoryA : FS := [("/proj/button.stories.js", storyFileA)]

/-- The extraction result on `storyFileA`. -/
def exStoryA : StoryExamples :=
  (extractStoryExamples fsStoryA "/proj/button.stories.js").getD
    { stories := [], imports := [], meta := none }

/-- The stored example of the `Primary` story of `storyFileA`. -/
def stPrimaryA : StoryExample :=
  (getAssoc exStoryA.stories "Primary").getD { code := "", args := [] }

/-- The captured per-story args body of `storyFileA` for `Primary`. -/
def bodyA : String := (storyArgsScan storyFileA.toList (pascalOf "primary")).getD ""

/-- The orchestrator result on `storyFileA` for story id
`example-button--primary`. -/
def sdPrimaryA : StoryData :=
  (parseStoryFile fsStoryA "/proj/button.stories.js" "example-button--primary" "/proj").getD
    sdDefault

/-- The orchestrator result on `storyFileA` for story id
`example-button--docs`. -/
def sdDocsA : StoryData :=
  (parseStoryFile fsStoryA "/proj/button.stories.js" "example-button--docs" "/proj").getD
    sdDefault

/-- A story file whose meta block lists `argTypes` followed by `tags:` (so the
argTypes block regex terminates) and imports a component whose file does not
exist under any candidate extension. -/
def storyFile8 : String :=
  "import \x7b Button \x7d from './button.component';\nconst meta = \x7b\n  component: Button,\n  argTypes: \x7b\n    primary: \x7b control: 'boolean' \x7d,\n  \x7d,\n  tags: ['autodocs'],\n\x7d;\nexport default meta;\n"

/-- File system holding `storyFile8` only. -/
def fsStory8 : FS := [("/proj/button.stories.js", storyFile8)]

/-- The orchestrator result on `storyFile8`. -/
def sdStory8 : StoryData :=
  (parseStoryFile fsStory8 "/proj/button.stories.js" "example-button--primary" "/proj").getD
    sdDefault

/-- A story file whose only export is `PrimaryXL` (uppercase in a non-initial
position), with an args block. -/
def storyFileXL : String :=
  "export const PrimaryXL = \x7b\n  args: \x7b a: 1 \x7d,\n\x7d;\n"

/-- File system holding `storyFileXL`. -/
def fsStoryXL : FS := [("/p/s.js", storyFileXL)]

/-- The orchestrator result on `storyFileXL` for id `x--primary-xl`. -/
def sdStoryXL : StoryData :=
  (parseStoryFile fsStoryXL "/p/s.js" "x--primary-xl" "/p").getD sdDefault

/-- The `PrimaryXL` story file extended with a second export whose name has the
derived name `PrimaryXl` as a prefix. -/
def storyFileXLB : String :=
  "export const PrimaryXL = \x7b\n  args: \x7b a: 1 \x7d,\n\x7d;\nexport const PrimaryXlBackup = \x7b\n  args: \x7b b: 2 \x7d,\n\x7d;\n"

/-- File system holding `storyFileXLB`. -/
def fsStoryXLB : FS := [("/p/s.js", storyFileXLB)]

/-- ASCII uppercase test (used to state the case-folding property). -/
def isAsciiUpper (c : Char) : Bool := 65 ≤ c.toNat && c.toNat ≤ 90

/-! Generic lemmas about the JS-object model. -/

theorem getAssoc_setAssoc_self (m : List (String × α)) (k : String) (v : α) :
    getAssoc (setAssoc m k v) k = some v := by
  induction m with
  | nil => simp [setAssoc, getAssoc]
  | cons hd tl ih =>
    obtain ⟨k', v'⟩ := hd
    by_cases h : k' = k <;> simp [setAssoc, getAssoc, h, ih]

theorem getAssoc_setAssoc_ne (m : List (String × α)) (k k' : String) (v : α)
    (h : k' ≠ k) : getAssoc (setAssoc m k' v) k = getAssoc m k := by
  induction m with
  | nil => simp [setAssoc, getAssoc, h]
  | cons hd tl ih =>
    obtain ⟨k₀, v₀⟩ := hd
    by_cases h0 : k₀ = k' <;> by_cases h1 : k₀ = k <;>
      simp_all [setAssoc, getAssoc]

theorem getAssoc_foldSet_of_no_key (g : β → Option (String × α)) (L : List β)
    (init : List (String × α)) (k : String)
    (h : ∀ b ∈ L, ∀ kv, g b = some kv → kv.1 ≠ k) :
    getAssoc (foldSet g init L) k = getAssoc init k := by
  induction L generalizing init with
  | nil => rfl
  | cons b rest ih =>
    have hrest : ∀ b' ∈ rest, ∀ kv, g b' = some kv → kv.1 ≠ k :=
      fun b' hb' => h b' (List.mem_cons_of_mem _ hb')
    cases hg : g b with
    | none => simpa [foldSet, hg] using ih init hrest
    | some kv =>
      have : getAssoc (setAssoc init kv.1 kv.2) k = getAssoc init k :=
        getAssoc_setAssoc_ne _ _ _ _ (h b (List.mem_cons_self _ _) kv hg)
      simpa [foldSet, hg, this] using ih (setAssoc init kv.1 kv.2) hrest

theorem getAssoc_foldSet_of_mem (g : β → Option (String × α)) (L : List β)
    (init : List (String × α)) (k : String) (v : α)
    (hex : ∃ b ∈ L, g b = some (k, v))
    (hval : ∀ b ∈ L, ∀ v', g b = some (k, v') → v' = v) :
    getAssoc (foldSet g init L) k = some v := by
  induction L generalizing init with
  | nil => simp at hex
  | cons b rest ih =>
    have hvalr : ∀ b' ∈ rest, ∀ v', g b' = some (k, v') → v' = v :=
      fun b' hb' => hval b' (List.mem_cons_of_mem _ hb')
    by_cases hr : ∃ b' ∈ rest, g b' = some (k, v)
    · cases hg : g b with
      | none => simpa [foldSet, hg] using ih init hr hvalr
      | some kv => simpa [foldSet, hg] using ih (setAssoc init kv.1 kv.2) hr hvalr
    · rcases hex with ⟨b', hb', hgb'⟩
      rcases List.mem_cons.mp hb' with hb0 | hbr
      · subst hb0
        have hnk : ∀ b' ∈ rest, ∀ kv, g b' = some kv → kv.1 ≠ k := by
          intro b'' hb'' kv hkv hk1
          apply hr
          obtain ⟨k₁, v₁⟩ := kv
          subst hk1
          have := hvalr b'' hb'' v₁ hkv
          subst this
          exact ⟨b'', hb'', hkv⟩
        have : getAssoc (foldSet g (setAssoc init k v) rest) k =
            getAssoc (setAssoc init k v) k := getAssoc_foldSet_of_no_key g rest _ k hnk
        simp [foldSet, hgb'] at this ⊢
        rw [this, getAssoc_setAssoc_self]
      · exact absurd ⟨b', hbr, hgb'⟩ hr

theorem getAssoc_foldSet_some (g : β → Option (String × α)) (L : List β)
    (init : List (String × α)) (k : String) (v : α)
    (h : getAssoc (foldSet g init L) k = some v) :
    (∃ b ∈ L, g b = some (k, v)) ∨ getAssoc init k = some v := by
  induction L generalizing init with
  | nil => exact Or.inr h
  | cons b rest ih =>
    cases hg : g b with
    | none =>
      rw [show foldSet g init (b :: rest) = foldSet g init rest by simp [foldSet, hg]] at h
      rcases ih init h with h1 | h2
      · exact Or.inl (by rcases h1 with ⟨b', hb', hg'⟩; exact ⟨b', List.mem_cons_of_mem _ hb', hg'⟩)
      · exact Or.inr h2
    | some kv =>
      rw [show foldSet g init (b :: rest) = foldSet g (setAssoc init kv.1 kv.2) rest by
        simp [foldSet, hg]] at h
      rcases ih (setAssoc init kv.1 kv.2) h with h1 | h2
      · exact Or.inl (by rcases h1 with ⟨b', hb', hg'⟩; exact ⟨b', List.mem_cons_of_mem _ hb', hg'⟩)
      · by_cases hk : kv.1 = k
        · subst hk
          rw [getAssoc_setAssoc_self] at h2
          exact Or.inl ⟨b, List.mem_cons_self _ _, by rw [hg, ← Option.some_inj.mp h2]⟩
        · rw [getAssoc_setAssoc_ne _ _ _ _ hk] at h2
          exact Or.inr h2

theorem backfillVal_description (p : PropertyDoc) (tm : TypeMatch) :
    (backfillVal p tm).description = p.description := by
  unfold backfillVal
  cases tm.rawDefault
  · rfl
  · dsimp only
    split <;> rfl

theorem backfillVal_required (p : PropertyDoc) (tm : TypeMatch) :
    (backfillVal p tm).required = p.required := by
  unfold backfillVal
  cases tm.rawDefault
  · rfl
  · dsimp only
    split <;> rfl

theorem backfillVal_jsType (p : PropertyDoc) (tm : TypeMatch) :
    (backfillVal p tm).jsType = p.jsType := by
  unfold backfillVal
  cases tm.rawDefault
  · rfl
  · dsimp only
    split <;> rfl

/-- The backfill fold never changes `description`, `required` or `jsType`. -/
theorem backfill_foldl_core (L : List TypeMatch) (init : List (String × PropertyDoc))
    (k : String) (p0 : PropertyDoc) (h : getAssoc init k = some p0) :
    ∃ p, getAssoc (List.foldl backfillStep init L) k = some p ∧
      p.description = p0.description ∧ p.required = p0.required ∧ p.jsType = p0.jsType := by
  induction L generalizing init p0 with
  | nil => exact ⟨p0, h, rfl, rfl, rfl⟩
  | cons tm rest ih =>
    rw [List.foldl_cons]
    cases hg : getAssoc init tm.name with
    | none =>
      exact ih (backfillStep init tm) p0 (by simp [backfillStep, hg, h])
    | some p =>
      by_cases hk : tm.name = k
      · subst hk
        have hp : p = p0 := by rw [hg] at h; exact Option.some_inj.mp h
        subst hp
        have hset : getAssoc (backfillStep init tm) tm.name = some (backfillVal p tm) := by
          simp only [backfillStep, hg]
          exact getAssoc_setAssoc_self _ _ _
        rcases ih (backfillStep init tm) _ hset with ⟨p', hp', h1, h2, h3⟩
        exact ⟨p', hp', by rw [h1, backfillVal_description],
          by rw [h2, backfillVal_required], by rw [h3, backfillVal_jsType]⟩
      · have heq : getAssoc (backfillStep init tm) k = getAssoc init k := by
          simp only [backfillStep, hg]
          exact getAssoc_setAssoc_ne _ _ _ _ hk
        exact ih (backfillStep init tm) p0 (heq ▸ h)

/-! Frame lemmas: each extraction step touches only its own fields. -/

theorem applyClassDoc_template (cs : List Char) (d : ComponentDocs) :
    (applyClassDoc cs d).template = d.template := by
  unfold applyClassDoc; cases classDocScan cs <;> rfl

theorem applyClassDoc_templateUrl (cs : List Char) (d : ComponentDocs) :
    (applyClassDoc cs d).templateUrl = d.templateUrl := by
  unfold applyClassDoc; cases classDocScan cs <;> rfl

theorem applyClassDoc_properties (cs : List Char) (d : ComponentDocs) :
    (applyClassDoc cs d).properties = d.properties := by
  unfold applyClassDoc; cases classDocScan cs <;> rfl

theorem applySelector_template (cs : List Char) (d : ComponentDocs) :
    (applySelector cs d).template = d.template := by
  unfold applySelector; cases selectorScan cs <;> rfl

theorem applySelector_templateUrl (cs : List Char) (d : ComponentDocs) :
    (applySelector cs d).templateUrl = d.templateUrl := by
  unfold applySelector; cases selectorScan cs <;> rfl

theorem applySelector_properties (cs : List Char) (d : ComponentDocs) :
    (applySelector cs d).properties = d.properties := by
  unfold applySelector; cases selectorScan cs <;> rfl

theorem applyTemplate_of_none (cs : List Char) (d : ComponentDocs)
    (h : templateScan cs = none) : applyTemplate cs d = d := by
  unfold applyTemplate; rw [h]

theorem applyTemplate_properties (cs : List Char) (d : ComponentDocs) :
    (applyTemplate cs d).properties = d.properties := by
  unfold applyTemplate; cases templateScan cs <;> rfl

theorem applyTemplate_templateUrl (cs : List Char) (d : ComponentDocs) :
    (applyTemplate cs d).templateUrl = d.templateUrl := by
  unfold applyTemplate; cases templateScan cs <;> rfl

theorem applyTemplate_of_some (cs : List Char) (d : ComponentDocs) (t : String)
    (h : templateScan cs = some t) :
    (applyTemplate cs d).template = some (jsTrim t) := by
  unfold applyTemplate; rw [h]

theorem applyTemplateUrl_properties (fs : FS) (p : String) (cs : List Char)
    (d : ComponentDocs) : (applyTemplateUrl fs p cs d).properties = d.properties := by
  unfold applyTemplateUrl
  cases templateUrlScan cs
  · rfl
  · dsimp only
    cases fileOf fs (pathResolve (pathDirname p) _) <;> rfl

theorem applyPropDocs_template (cs : List Char) (d : ComponentDocs) :
    (applyPropDocs cs d).template = d.template := rfl

theorem applyPropDocs_templateUrl (cs : List Char) (d : ComponentDocs) :
    (applyPropDocs cs d).templateUrl = d.templateUrl := rfl

theorem applyInterfaceProps_template (cs : List Char) (d : ComponentDocs) :
    (applyInterfaceProps cs d).template = d.template := rfl

theorem applyInterfaceProps_templateUrl (cs : List Char) (d : ComponentDocs) :
    (applyInterfaceProps cs d).templateUrl = d.templateUrl := rfl

theorem applyTypeBackfill_template (cs : List Char) (d : ComponentDocs) :
    (applyTypeBackfill cs d).template = d.template := rfl

theorem applyTypeBackfill_templateUrl (cs : List Char) (d : ComponentDocs) :
    (applyTypeBackfill cs d).templateUrl = d.templateUrl := rfl

theorem applyComponentCode_template (cs : List Char) (d : ComponentDocs) :
    (applyComponentCode cs d).template = d.template := by
  unfold applyComponentCode
  cases classCodeScan cs <;> cases funcCodeScan cs <;> dsimp only <;> try rfl
  all_goals split <;> rfl

theorem applyComponentCode_templateUrl (cs : List Char) (d : ComponentDocs) :
    (applyComponentCode cs d).templateUrl = d.templateUrl := by
  unfold applyComponentCode
  cases classCodeScan cs <;> cases funcCodeScan cs <;> dsimp only <;> try rfl
  all_goals split <;> rfl

theorem applyComponentCode_properties (cs : List Char) (d : ComponentDocs) :
    (applyComponentCode cs d).properties = d.properties := by
  unfold applyComponentCode
  cases classCodeScan cs <;> cases funcCodeScan cs <;> dsimp only <;> try rfl
  all_goals split <;> rfl

theorem sdApplyComponent_args (fs : FS) (fp : String) (cs : List Char) (sd : StoryData) :
    (sdApplyComponent fs fp cs sd).args = sd.args := by
  unfold sdApplyComponent
  cases componentScan cs
  · rfl
  · dsimp only
    cases importFromScan _ cs
    · rfl
    · dsimp only
      cases firstCandidate fs _
      · rfl
      · dsimp only
        cases extractComponentDocs fs _ <;> rfl

theorem sdApplyComponent_argTypes (fs : FS) (fp : String) (cs : List Char) (sd : StoryData) :
    (sdApplyComponent fs fp cs sd).argTypes = sd.argTypes := by
  unfold sdApplyComponent
  cases componentScan cs
  · rfl
  · dsimp only
    cases importFromScan _ cs
    · rfl
    · dsimp only
      cases firstCandidate fs _
      · rfl
      · dsimp only
        cases extractComponentDocs fs _ <;> rfl

theorem sdApplyArgTypes_args (cs : List Char) (sd : StoryData) :
    (sdApplyArgTypes cs sd).args = sd.args := by
  unfold sdApplyArgTypes; cases argTypesOf cs <;> rfl

theorem sdApplyArgTypes_component (cs : List Char) (sd : StoryData) :
    (sdApplyArgTypes cs sd).component = sd.component := by
  unfold sdApplyArgTypes; cases argTypesOf cs <;> rfl

theorem sdApplyArgTypes_componentDocs (cs : List Char) (sd : StoryData) :
    (sdApplyArgTypes cs sd).componentDocs = sd.componentDocs := by
  unfold sdApplyArgTypes; cases argTypesOf cs <;> rfl

theorem sdApplyArgs_some_component (cs : List Char) (storyId : String)
    (sd sd' : StoryData) (h : sdApplyArgs cs storyId sd = some sd') :
    sd'.component = sd.component := by
  unfold sdApplyArgs at h
  cases hg : (jsSplit storyId "--").get? 1 with
  | none =>
    rw [hg] at h
    simp only [Option.some.injEq] at h
    rw [← h]
  | some sn =>
    rw [hg] at h
    dsimp only at h
    split at h
    · simp only [Option.some.injEq] at h
      rw [← h]
    · split at h
      · split at h <;> simp only [Option.some.injEq] at h <;> rw [← h]
      · exact absurd h (by simp)

theorem sdApplyArgs_some_componentDocs (cs : List Char) (storyId : String)
    (sd sd' : StoryData) (h : sdApplyArgs cs storyId sd = some sd') :
    sd'.componentDocs = sd.componentDocs := by
  unfold sdApplyArgs at h
  cases hg : (jsSplit storyId "--").get? 1 with
  | none =>
    rw [hg] at h
    simp only [Option.some.injEq] at h
    rw [← h]
  | some sn =>
    rw [hg] at h
    dsimp only at h
    split at h
    · simp only [Option.some.injEq] at h
      rw [← h]
    · split at h
      · split at h <;> simp only [Option.some.injEq] at h <;> rw [← h]
      · exact absurd h (by simp)

theorem sdApplyArgs_some_argTypes (cs : List Char) (storyId : String)
    (sd sd' : StoryData) (h : sdApplyArgs cs storyId sd = some sd') :
    sd'.argTypes = sd.argTypes := by
  unfold sdApplyArgs at h
  cases hg : (jsSplit storyId "--").get? 1 with
  | none =>
    rw [hg] at h
    simp only [Option.some.injEq] at h
    rw [← h]
  | some sn =>
    rw [hg] at h
    dsimp only at h
    split at h
    · simp only [Option.some.injEq] at h
      rw [← h]
    · split at h
      · split at h <;> simp only [Option.some.injEq] at h <;> rw [← h]
      · exact absurd h (by simp)

theorem sdApplyArgs_of_docs (cs : List Char) (storyId : String) (sd : StoryData)
    (h : (jsSplit storyId "--").get? 1 = some "docs") :
    sdApplyArgs cs storyId sd = some sd := by
  unfold sdApplyArgs; rw [h]; simp

theorem sdApplyArgs_of_no_match (cs : List Char) (storyId sn : String) (sd : StoryData)
    (hsn : (jsSplit storyId "--").get? 1 = some sn) (h1 : sn ≠ "") (h2 : sn ≠ "docs")
    (hv : ecmaPatternValid (storyPatternText (pascalOf sn)) = true)
    (hscan : storyArgsScan cs (pascalOf sn) = none) :
    sdApplyArgs cs storyId sd = some sd := by
  unfold sdApplyArgs; rw [hsn]; simp [h1, h2, hv, hscan]

theorem sdApplyArgs_of_match (cs : List Char) (storyId sn body : String) (sd : StoryData)
    (hsn : (jsSplit storyId "--").get? 1 = some sn) (h1 : sn ≠ "") (h2 : sn ≠ "docs")
    (hv : ecmaPatternValid (storyPatternText (pascalOf sn)) = true)
    (hscan : storyArgsScan cs (pascalOf sn) = some body) :
    sdApplyArgs cs storyId sd = some { sd with args := some (parseArgsFinal body) } := by
  unfold sdApplyArgs; rw [hsn]; simp [h1, h2, hv, hscan]

theorem sdApplyArgs_of_invalid (cs : List Char) (storyId sn : String) (sd : StoryData)
    (hsn : (jsSplit storyId "--").get? 1 = some sn) (h1 : sn ≠ "") (h2 : sn ≠ "docs")
    (hv : ecmaPatternValid (storyPatternText (pascalOf sn)) = false) :
    sdApplyArgs cs storyId sd = none := by
  unfold sdApplyArgs; rw [hsn]; simp [h1, h2, hv]

theorem toNat_ofNat_valid (n : Nat) (h : n < 55296) : (Char.ofNat n).toNat = n := by
  rw [Char.ofNat, dif_pos (Or.inl h)]
  rfl

theorem isAsciiUpper_toLower (c : Char) : isAsciiUpper (Char.toLower c) = false := by
  rw [Char.toLower]
  by_cases h : c.toNat ≥ 65 ∧ c.toNat ≤ 90
  · rw [if_pos h]
    have hv : (Char.ofNat (c.toNat + 32)).toNat = c.toNat + 32 :=
      toNat_ofNat_valid _ (by omega)
    simp only [isAsciiUpper, hv, Bool.and_eq_false_iff, decide_eq_false_iff_not]
    omega
  · rw [if_neg h]
    simp only [isAsciiUpper, Bool.and_eq_false_iff, decide_eq_false_iff_not]
    omega

/-! Claim theorems. -/

/-- C5: the derived PascalCase export name for the story id
`example-button--primary` is `Primary` (segment after `--` is `primary`,
capitalized); and for any story id whose segment after `--` is the literal
`docs`, the per-story args lookup is skipped, leaving `args` absent. -/
theorem c5_pascal_and_docs_skip (fs : FS) (filePath storyId projectDir : String)
    (sd : StoryData)
    (hdocs : (jsSplit storyId "--").get? 1 = some "docs")
    (hsd : parseStoryFile fs filePath storyId projectDir = some sd) :
    (jsSplit "example-button--primary" "--").get? 1 = some "primary" ∧
    pascalOf "primary" = "Primary" ∧ sd.args = none := by
  refine ⟨by decide, by decide, ?_⟩
  cases h : fileOf fs filePath with
  | none =>
    unfold parseStoryFile at hsd
    rw [h] at hsd
    exact absurd hsd (by simp)
  | some content =>
    unfold parseStoryFile at hsd
    rw [h] at hsd
    dsimp only at hsd
    rw [sdApplyArgs_of_docs _ _ _ hdocs] at hsd
    simp only [Option.some.injEq] at hsd
    rw [← hsd, sdApplyArgTypes_args, sdApplyComponent_args]

/-- C5 witness: the concrete story file `storyFileA` with id
`example-button--docs`. -/
theorem c5_witness :
    (jsSplit "example-button--docs" "--").get? 1 = some "docs" ∧
    parseStoryFile fsStoryA "/proj/button.stories.js" "example-button--docs" "/proj"
      = some sdDocsA ∧
    ((jsSplit "example-button--primary" "--").get? 1 = some "primary" ∧
      pascalOf "primary" = "Primary" ∧ sdDocsA.args = none) :=
  ⟨by decide, by decide,
    c5_pascal_and_docs_skip fsStoryA "/proj/button.stories.js" "example-button--docs"
      "/proj" sdDocsA (by decide) (by decide)⟩

/-- C7: on the args map `{ primary: true, label: "Button" }`, selector
`app-button`, story name `Primary` and framework `angular`, the generated
usage example is exactly the expected markup: it contains the bracket bindings
`[primary]="true"` and `label="Button"`, starts with the story comment, and
wraps the attributes in an `<app-button ...></app-button>` pair. -/
theorem c7_usage_example :
    generateUsageExample (some "app-button")
        [("primary", JSVal.vBool true), ("label", JSVal.vStr "Button")] "Primary" "angular"
      = some "<!-- Primary Example -->\n<app-button\n    [primary]=\"true\"\n    label=\"Button\">\n</app-button>" ∧
    containsSub
      "<!-- Primary Example -->\n<app-button\n    [primary]=\"true\"\n    label=\"Button\">\n</app-button>"
      "[primary]=\"true\"" = true ∧
    containsSub
      "<!-- Primary Example -->\n<app-button\n    [primary]=\"true\"\n    label=\"Button\">\n</app-button>"
      "label=\"Button\"" = true ∧
    startsWithL "<!-- Primary Example -->".toList
      "<!-- Primary Example -->\n<app-button\n    [primary]=\"true\"\n    label=\"Button\">\n</app-button>".toList = true ∧
    containsSub
      "<!-- Primary Example -->\n<app-button\n    [primary]=\"true\"\n    label=\"Button\">\n</app-button>"
      "<app-button" = true ∧
    endsWithL "</app-button>".toList
      "<!-- Primary Example -->\n<app-button\n    [primary]=\"true\"\n    label=\"Button\">\n</app-button>".toList = true := by
  refine ⟨rfl, by decide, by decide, by decide, by decide, by decide⟩

/-- C2: on a component file with a `templateUrl` match and no inline template
match, `templateUrl` records the captured url, and `template` equals the
trimmed contents of the resolved file when it exists, and is absent when it
does not (stated as one equation through the partial file read). -/
theorem c2_templateUrl_branches (fs : FS) (path content url : String)
    (hread : fileOf fs path = some content)
    (hinline : templateScan content.toList = none)
    (hurl : templateUrlScan content.toList = some url) :
    ∃ docs, extractComponentDocs fs path = some docs ∧
      docs.templateUrl = some url ∧
      docs.template = (fileOf fs (pathResolve (pathDirname path) url)).map jsTrim := by
  have hx : extractComponentDocs fs path = some (applyComponentCode content.toList
      (applyTypeBackfill content.toList (applyInterfaceProps content.toList
        (applyPropDocs content.toList (applyTemplateUrl fs path content.toList
          (applyTemplate content.toList (applySelector content.toList
            (applyClassDoc content.toList emptyDocs)))))))) := by
    unfold extractComponentDocs
    rw [hread]
  refine ⟨_, hx, ?_, ?_⟩
  · rw [applyComponentCode_templateUrl, applyTypeBackfill_templateUrl,
      applyInterfaceProps_templateUrl, applyPropDocs_templateUrl]
    unfold applyTemplateUrl
    rw [hurl]
    dsimp only
    cases hf : fileOf fs (pathResolve (pathDirname path) url) <;> rfl
  · rw [applyComponentCode_template, applyTypeBackfill_template,
      applyInterfaceProps_template, applyPropDocs_template]
    unfold applyTemplateUrl
    rw [hurl]
    dsimp only
    cases hf : fileOf fs (pathResolve (pathDirname path) url) with
    | none =>
      dsimp only
      rw [applyTemplate_of_none _ _ hinline, applySelector_template, applyClassDoc_template]
      rfl
    | some txt => rfl

/-- C2 witness: `fsTemplateUrl` holds `/c/a.ts` referencing `./x.html`, which
exists with contents `" <b>hi</b> "`. -/
theorem c2_witness :
    fileOf fsTemplateUrl "/c/a.ts" = some contentTU ∧
    templateScan contentTU.toList = none ∧
    templateUrlScan contentTU.toList = some "./x.html" ∧
    (∃ docs, extractComponentDocs fsTemplateUrl "/c/a.ts" = some docs ∧
      docs.templateUrl = some "./x.html" ∧
      docs.template = (fileOf fsTemplateUrl
        (pathResolve (pathDirname "/c/a.ts") "./x.html")).map jsTrim) :=
  ⟨by decide, by decide, by decide,
    c2_templateUrl_branches fsTemplateUrl "/c/a.ts" contentTU "./x.html"
      (by decide) (by decide) (by decide)⟩

/-- C3 counterexample: `contentBoth` has an inline template (`<i>in</i>`) and
a `templateUrl` whose target exists with contents `<b>ext</b>`; the extractor
reports the external contents, not the inline template — the claim that the
inline template is never overwritten is false on the code. -/
theorem c3_counterexample :
    templateScan contentBoth.toList = some "<i>in</i>" ∧
    (extractComponentDocs fsBothTemplates "/c/a.ts").map ComponentDocs.template
      = some (some "<b>ext</b>") ∧
    some "<b>ext</b>" ≠ some (jsTrim "<i>in</i>") :=
  ⟨by decide, by decide, by decide⟩

/-- C3 amended: when both an inline template and a `templateUrl` whose
resolved file exists are present, the external file's trimmed contents
overwrite the inline template (source lines 46-48 assign unconditionally);
the inline template survives only when no url matches or its file is
missing. -/
theorem c3_external_overwrites (fs : FS) (path content t url txt : String)
    (hread : fileOf fs path = some content)
    (_hinline : templateScan content.toList = some t)
    (hurl : templateUrlScan content.toList = some url)
    (hfile : fileOf fs (pathResolve (pathDirname path) url) = some txt) :
    ∃ docs, extractComponentDocs fs path = some docs ∧
      docs.template = some (jsTrim txt) := by
  have hx : extractComponentDocs fs path = some (applyComponentCode content.toList
      (applyTypeBackfill content.toList (applyInterfaceProps content.toList
        (applyPropDocs content.toList (applyTemplateUrl fs path content.toList
          (applyTemplate content.toList (applySelector content.toList
            (applyClassDoc content.toList emptyDocs)))))))) := by
    unfold extractComponentDocs
    rw [hread]
  refine ⟨_, hx, ?_⟩
  rw [applyComponentCode_template, applyTypeBackfill_template,
    applyInterfaceProps_template, applyPropDocs_template]
  unfold applyTemplateUrl
  rw [hurl]
  dsimp only
  rw [hfile]

/-- C3 witness: the amended statement at the concrete both-templates file. -/
theorem c3_witness :
    templateScan contentBoth.toList = some "<i>in</i>" ∧
    (∃ docs, extractComponentDocs fsBothTemplates "/c/a.ts" = some docs ∧
      docs.template = some (jsTrim "<b>ext</b>")) :=
  ⟨by decide,
    c3_external_overwrites fsBothTemplates "/c/a.ts" contentBoth "<i>in</i>" "./x.html"
      "<b>ext</b>" (by decide) (by decide) (by decide) (by decide)⟩

/-- C8: when the story file exists, names a component, and imports it from a
relative path such that no candidate extension resolves to an existing file,
the orchestrator still returns a record with `component` set and `argTypes`
exactly as scanned, while `componentDocs` is absent. -/
theorem c8_missing_component (fs : FS) (filePath storyId projectDir content cname rel : String)
    (sd : StoryData)
    (hread : fileOf fs filePath = some content)
    (hcomp : componentScan content.toList = some cname)
    (himp : importFromScan cname content.toList = some rel)
    (hmiss : ∀ ext ∈ extensionList,
      existsSync fs (candidatePath (pathResolve (pathDirname filePath) rel) ext) = false)
    (hsd : parseStoryFile fs filePath storyId projectDir = some sd) :
    sd.component = some cname ∧ sd.componentDocs = none ∧
    sd.argTypes = argTypesOf content.toList := by
  have hfc : firstCandidate fs (pathResolve (pathDirname filePath) rel) = none := by
    unfold firstCandidate
    rw [List.find?_eq_none]
    intro x hx
    rcases List.mem_map.mp hx with ⟨ext, hext, rfl⟩
    simpa using hmiss ext hext
  unfold parseStoryFile at hsd
  rw [hread] at hsd
  dsimp only at hsd
  have hA : sdApplyComponent fs filePath content.toList
      { id := storyId, filePath := filePath, component := none,
        argTypes := none, args := none, componentDocs := none } =
      { id := storyId, filePath := filePath, component := some cname,
        argTypes := none, args := none, componentDocs := none } := by
    unfold sdApplyComponent
    rw [hcomp]
    dsimp only
    rw [himp]
    dsimp only
    rw [hfc]
  refine ⟨?_, ?_, ?_⟩
  · rw [sdApplyArgs_some_component _ _ _ _ hsd, sdApplyArgTypes_component, hA]
  · rw [sdApplyArgs_some_componentDocs _ _ _ _ hsd, sdApplyArgTypes_componentDocs, hA]
  · rw [sdApplyArgs_some_argTypes _ _ _ _ hsd]
    unfold sdApplyArgTypes
    cases hat : argTypesOf content.toList with
    | none =>
      dsimp only
      rw [hA]
    | some m =>
      dsimp only

set_option maxRecDepth 8000 in
/-- C8 witness: `storyFile8` names `Button`, imports it from
`./button.component`, and no candidate extension exists in `fsStory8`. -/
theorem c8_witness :
    fileOf fsStory8 "/proj/button.stories.js" = some storyFile8 ∧
    componentScan storyFile8.toList = some "Button" ∧
    importFromScan "Button" storyFile8.toList = some "./button.component" ∧
    (∀ ext ∈ extensionList, existsSync fsStory8
      (candidatePath (pathResolve (pathDirname "/proj/button.stories.js")
        "./button.component") ext) = false) ∧
    (sdStory8.component = some "Button" ∧ sdStory8.componentDocs = none ∧
      sdStory8.argTypes = argTypesOf storyFile8.toList) :=
  ⟨by decide, by decide, by decide, by decide,
    c8_missing_component fsStory8 "/proj/button.stories.js" "example-button--primary"
      "/proj" storyFile8 "Button" "./button.component" sdStory8
      (by decide) (by decide) (by decide) (by decide) (by decide)⟩

/-- C4: every example stored by the story scan carries a `code` text that is
exactly `export const <Name> = {<captured body>};` for some matched body —
the reconstruction template of source line 175. -/
theorem c4_code_roundtrip (fs : FS) (path content name : String)
    (ex : StoryExamples) (st : StoryExample)
    (hread : fileOf fs path = some content)
    (hex : extractStoryExamples fs path = some ex)
    (hst : getAssoc ex.stories name = some st) :
    ∃ body, (name, body) ∈ storyMatches content.toList ∧
      st.code = "export const " ++ name ++ " = \x7b" ++ body ++ "\x7d;" := by
  unfold extractStoryExamples at hex
  rw [hread] at hex
  simp only [Option.some.injEq] at hex
  rw [← hex] at hst
  dsimp only at hst
  rcases getAssoc_foldSet_some _ _ _ _ _ hst with ⟨b, hb, hg⟩ | habs
  · simp only [Option.some.injEq, Prod.mk.injEq] at hg
    exact ⟨b.2, by rw [← hg.1]; exact hb, by rw [← hg.2, ← hg.1]; rfl⟩
  · exact absurd habs (by simp [getAssoc])

set_option maxRecDepth 8000 in
/-- C4 witness: the `Primary` story of `storyFileA`. -/
theorem c4_witness :
    fileOf fsStoryA "/proj/button.stories.js" = some storyFileA ∧
    extractStoryExamples fsStoryA "/proj/button.stories.js" = some exStoryA ∧
    getAssoc exStoryA.stories "Primary" = some stPrimaryA ∧
    (∃ body, ("Primary", body) ∈ storyMatches storyFileA.toList ∧
      stPrimaryA.code = "export const " ++ "Primary" ++ " = \x7b" ++ body ++ "\x7d;") :=
  ⟨by decide, by decide, by decide,
    c4_code_roundtrip fsStoryA "/proj/button.stories.js" storyFileA "Primary"
      exStoryA stPrimaryA (by decide) (by decide) (by decide)⟩

/-- C6: when the per-story args body is captured, the orchestrator's args map
is the coercion fold over its comma fragments, and every fragment whose
cleaned value is a non-empty numeric string other than `true`/`false` is
stored as a JS number (not a string). -/
theorem c6_numeric_coercion (fs : FS)
    (filePath storyId projectDir content sn body line k rawv : String)
    (n : JSNum) (sd : StoryData)
    (hread : fileOf fs filePath = some content)
    (hsn : (jsSplit storyId "--").get? 1 = some sn)
    (hsn1 : sn ≠ "") (hsn2 : sn ≠ "docs")
    (hbody : storyArgsScan content.toList (pascalOf sn) = some body)
    (hsd : parseStoryFile fs filePath storyId projectDir = some sd)
    (hline : line ∈ jsSplit body ",")
    (hkv : argFragKV line = some (k, rawv))
    (huniq : (jsSplit body ",").all (fun line' =>
      match argFragKV line' with
      | some kv' => !(kv'.1 == k) || (coerceArgValue kv'.2 == coerceArgValue rawv)
      | none => true) = true)
    (hnotb1 : stripQuotesBoth (stripTrailingComma (jsTrim rawv)) ≠ "true")
    (hnotb2 : stripQuotesBoth (stripTrailingComma (jsTrim rawv)) ≠ "false")
    (hne : stripQuotesBoth (stripTrailingComma (jsTrim rawv)) ≠ "")
    (hnum : jsToNumber (stripQuotesBoth (stripTrailingComma (jsTrim rawv))) = some n) :
    sd.args = some (parseArgsFinal body) ∧
    getAssoc (parseArgsFinal body) k = some (JSVal.vNum n) := by
  have hco : coerceArgValue rawv = JSVal.vNum n := by
    unfold coerceArgValue
    rw [if_neg hnotb1, if_neg hnotb2, hnum]
    dsimp only
    rw [if_neg hne]
  constructor
  · cases h : fileOf fs filePath with
    | none =>
      unfold parseStoryFile at hsd
      rw [h] at hsd
      exact absurd hsd (by simp)
    | some content' =>
      have hcc : content' = content := by
        rw [h] at hread
        exact Option.some_inj.mp hread
      subst hcc
      unfold parseStoryFile at hsd
      rw [h] at hsd
      dsimp only at hsd
      cases hv : ecmaPatternValid (storyPatternText (pascalOf sn)) with
      | false =>
        rw [sdApplyArgs_of_invalid _ _ _ _ hsn hsn1 hsn2 hv] at hsd
        exact absurd hsd (by simp)
      | true =>
        rw [sdApplyArgs_of_match _ _ _ _ _ hsn hsn1 hsn2 hv hbody] at hsd
        simp only [Option.some.injEq] at hsd
        rw [← hsd]
  · unfold parseArgsFinal
    refine getAssoc_foldSet_of_mem _ _ _ _ _ ⟨line, hline, ?_⟩ ?_
    · rw [hkv]
      simp only [Option.map_some']
      rw [hco]
    · intro b hb v' hg
      have hfb := List.all_eq_true.mp huniq b hb
      cases hkv' : argFragKV b with
      | none => rw [hkv'] at hg; simp at hg
      | some kv' =>
        rw [hkv'] at hg
        simp only [Option.map_some', Option.some.injEq, Prod.mk.injEq] at hg
        rw [hkv'] at hfb
        rcases (Bool.or_eq_true _ _).mp hfb with h1 | h2
        · exact absurd hg.1 (by simpa using h1)
        · rw [← hg.2, eq_of_beq h2, hco]

set_option maxRecDepth 8000 in
/-- C6 witness: the fragment `count: 42` of the `Primary` story of
`storyFileA` is stored as the number `42`. -/
theorem c6_witness :
    fileOf fsStoryA "/proj/button.stories.js" = some storyFileA ∧
    (jsSplit "example-button--primary" "--").get? 1 = some "primary" ∧
    storyArgsScan storyFileA.toList (pascalOf "primary") = some bodyA ∧
    parseStoryFile fsStoryA "/proj/button.stories.js" "example-button--primary" "/proj"
      = some sdPrimaryA ∧
    "\n    count: 42" ∈ jsSplit bodyA "," ∧
    argFragKV "\n    count: 42" = some ("count", " 42") ∧
    stripQuotesBoth (stripTrailingComma (jsTrim " 42")) = "42" ∧
    jsToNumber "42" = some (JSNum.rat 42) ∧
    (sdPrimaryA.args = some (parseArgsFinal bodyA) ∧
      getAssoc (parseArgsFinal bodyA) "count" = some (JSVal.vNum (JSNum.rat 42))) :=
  ⟨by decide, by decide, by decide, by decide, by decide, by decide, by decide, by decide,
    c6_numeric_coercion fsStoryA "/proj/button.stories.js" "example-button--primary"
      "/proj" storyFileA "primary" bodyA "\n    count: 42" "count" " 42"
      (JSNum.rat 42) sdPrimaryA
      (by decide) (by decide) (by decide) (by decide) (by decide) (by decide)
      (by decide) (by decide) (by decide) (by decide) (by decide) (by decide)
      (by decide)⟩

/-- C1 counterexample: in `fsRecompose`, the comment `@requi@requiredred`
contains the token `@required`, so `required` is set; but the non-overlapping
global deletion of the token splices the remaining fragments into a fresh
`@required`, which therefore remains in the stored description — refuting the
claim that the literal token never survives. -/
theorem c1_counterexample :
    propDocMatches ("/**\n * @requi@requiredred\n */\n@Input() label;\n").toList
      = [{ rawDesc := "* @requi@requiredred", decorator := "Input", name := "label" }] ∧
    containsSub (cleanComment "* @requi@requiredred") "@required" = true ∧
    (extractComponentDocs fsRecompose "/c/btn.ts").map (fun d =>
      (getAssoc d.properties "label").map (fun p =>
        (p.required, containsSub p.description "@required")))
      = some (some (true, true)) :=
  ⟨by decide, by decide, by decide⟩

/-- C1 amended: for a decorator-property match that is the only one with its
identifier and is not shadowed by an interface-props match, the final record
has `required` equal to the `@required`-containment test on the cleaned
comment, and a description equal to the cleaned comment with every
left-to-right non-overlapping `@required` occurrence removed, re-trimmed
(which still contains the token exactly when the deletion splices a new
occurrence together). -/
theorem getAssoc_applyPropDocs (cs : List Char) (d : ComponentDocs) (m : DecoratorMatch)
    (hmem : m ∈ propDocMatches cs)
    (huniq : ∀ m' ∈ propDocMatches cs, m'.name = m.name → m' = m) :
    getAssoc (applyPropDocs cs d).properties m.name = some (mkDecoratorProp m) := by
  show getAssoc (foldSet (fun x => some (x.name, mkDecoratorProp x))
    d.properties (propDocMatches cs)) m.name = some (mkDecoratorProp m)
  refine getAssoc_foldSet_of_mem _ _ _ _ _ ⟨m, hmem, rfl⟩ ?_
  intro b hb v' hg
  simp only [Option.some.injEq, Prod.mk.injEq] at hg
  rw [← hg.2, huniq b hb hg.1]

theorem getAssoc_applyInterfaceProps_ne (cs : List Char) (d : ComponentDocs) (k : String)
    (hiface : ∀ im ∈ ifaceMatches cs, im.name ≠ k) :
    getAssoc (applyInterfaceProps cs d).properties k = getAssoc d.properties k := by
  show getAssoc (foldSet (fun x => some (x.name, mkIfaceProp x))
    d.properties (ifaceMatches cs)) k = getAssoc d.properties k
  refine getAssoc_foldSet_of_no_key _ _ _ _ ?_
  intro b hb kv hkv
  simp only [Option.some.injEq] at hkv
  rw [← hkv]
  exact hiface b hb

theorem getAssoc_applyTypeBackfill (cs : List Char) (d : ComponentDocs) (k : String)
    (p0 : PropertyDoc) (h : getAssoc d.properties k = some p0) :
    ∃ p, getAssoc (applyTypeBackfill cs d).properties k = some p ∧
      p.description = p0.description ∧ p.required = p0.required ∧ p.jsType = p0.jsType := by
  show ∃ p, getAssoc (List.foldl backfillStep d.properties (typeMatches cs)) k = some p ∧ _
  exact backfill_foldl_core (typeMatches cs) d.properties k p0 h

theorem c1_required_amended (fs : FS) (path content : String) (m : DecoratorMatch)
    (hread : fileOf fs path = some content)
    (hmem : m ∈ propDocMatches content.toList)
    (huniq : ∀ m' ∈ propDocMatches content.toList, m'.name = m.name → m' = m)
    (hiface : ∀ im ∈ ifaceMatches content.toList, im.name ≠ m.name) :
    ∃ docs p, extractComponentDocs fs path = some docs ∧
      getAssoc docs.properties m.name = some p ∧
      p.required = containsSub (cleanComment m.rawDesc) "@required" ∧
      p.description = jsTrim (removeAll (cleanComment m.rawDesc) "@required") ∧
      p.jsType = some (lowerS m.decorator) := by
  have hx : extractComponentDocs fs path = some (applyComponentCode content.toList
      (applyTypeBackfill content.toList (applyInterfaceProps content.toList
        (applyPropDocs content.toList (applyTemplateUrl fs path content.toList
          (applyTemplate content.toList (applySelector content.toList
            (applyClassDoc content.toList emptyDocs)))))))) := by
    unfold extractComponentDocs
    rw [hread]
  have h6 : getAssoc (applyInterfaceProps content.toList (applyPropDocs content.toList
      (applyTemplateUrl fs path content.toList (applyTemplate content.toList
        (applySelector content.toList
          (applyClassDoc content.toList emptyDocs)))))).properties m.name
      = some (mkDecoratorProp m) := by
    rw [getAssoc_applyInterfaceProps_ne _ _ _ hiface]
    exact getAssoc_applyPropDocs _ _ _ hmem huniq
  rcases getAssoc_applyTypeBackfill content.toList _ m.name _ h6 with ⟨p, hp, hd, hr, hj⟩
  refine ⟨_, p, hx, ?_, ?_, ?_, ?_⟩
  · rw [applyComponentCode_properties]
    exact hp
  · rw [hr]; rfl
  · rw [hd]; rfl
  · rw [hj]; rfl

set_option maxRecDepth 8000 in
/-- C1 witness: the ordinary `@required` comment of `fsRequired`. -/
theorem c1_witness :
    fileOf fsRequired "/c/btn.ts" = some contentRequired ∧
    mRequired ∈ propDocMatches contentRequired.toList ∧
    containsSub (cleanComment mRequired.rawDesc) "@required" = true ∧
    jsTrim (removeAll (cleanComment mRequired.rawDesc) "@required") = "The label." ∧
    (∃ docs p, extractComponentDocs fsRequired "/c/btn.ts" = some docs ∧
      getAssoc docs.properties mRequired.name = some p ∧
      p.required = containsSub (cleanComment mRequired.rawDesc) "@required" ∧
      p.description = jsTrim (removeAll (cleanComment mRequired.rawDesc) "@required") ∧
      p.jsType = some (lowerS mRequired.decorator)) :=
  ⟨by decide, by decide, by decide, by decide,
    c1_required_amended fsRequired "/c/btn.ts" contentRequired mRequired
      (by decide) (by decide) (by decide) (by decide)⟩

/-- C10 counterexample: for the story id `x--primary-xl` the derived name is
`PrimaryXl`, which never matches the actual export `PrimaryXL`; but in
`storyFileXLB` the unrelated export `PrimaryXlBackup` has the derived name as
a prefix, so the per-story args lookup does match and `args` is present —
refuting the claim that it is absent for every such story. -/
theorem c10_counterexample :
    containsSub storyFileXLB "export const PrimaryXL " = true ∧
    pascalOf "primary-xl" = "PrimaryXl" ∧
    ("PrimaryXl" : String) ≠ "PrimaryXL" ∧
    (parseStoryFile fsStoryXLB "/p/s.js" "x--primary-xl" "/p").map StoryData.args
      = some (some [("b", JSVal.vNum (JSNum.rat 2))]) :=
  ⟨by decide, by decide, by decide, by decide⟩

/-- C10 amended: the derived PascalCase name lower-cases every non-initial
character of each hyphen-delimited part (`primary-xl` yields `PrimaryXl`,
never `PrimaryXL`), so the lookup pattern never matches the differently-cased
actual export name itself; when nothing else in the file matches the pattern,
the `args` field is absent. -/
theorem c10_case_folding (fs : FS) (filePath storyId projectDir content sn : String)
    (sd : StoryData)
    (hread : fileOf fs filePath = some content)
    (hsn : (jsSplit storyId "--").get? 1 = some sn)
    (hsn1 : sn ≠ "") (hsn2 : sn ≠ "docs")
    (hnomatch : storyArgsScan content.toList (pascalOf sn) = none)
    (hsd : parseStoryFile fs filePath storyId projectDir = some sd) :
    pascalOf "primary-xl" = "PrimaryXl" ∧
    ("PrimaryXl" : String) ≠ "PrimaryXL" ∧
    (∀ part c, part ∈ jsSplit sn "-" → c ∈ (capWordJs part).toList.drop 1 →
      isAsciiUpper c = false) ∧
    sd.args = none := by
  refine ⟨by decide, by decide, ?_, ?_⟩
  · intro part c _hp hc
    obtain ⟨pl⟩ := part
    cases pl with
    | nil => exact absurd (show c ∈ ([] : List Char) from hc) (List.not_mem_nil c)
    | cons c0 rest =>
      have hrw : (capWordJs ⟨c0 :: rest⟩).toList.drop 1 = rest.map Char.toLower := rfl
      rw [hrw] at hc
      rcases List.mem_map.mp hc with ⟨x, _hx, rfl⟩
      exact isAsciiUpper_toLower x
  · cases h : fileOf fs filePath with
    | none =>
      unfold parseStoryFile at hsd
      rw [h] at hsd
      exact absurd hsd (by simp)
    | some content' =>
      have hcc : content' = content := by
        rw [h] at hread
        exact Option.some_inj.mp hread
      subst hcc
      unfold parseStoryFile at hsd
      rw [h] at hsd
      dsimp only at hsd
      cases hv : ecmaPatternValid (storyPatternText (pascalOf sn)) with
      | false =>
        rw [sdApplyArgs_of_invalid _ _ _ _ hsn hsn1 hsn2 hv] at hsd
        exact absurd hsd (by simp)
      | true =>
        rw [sdApplyArgs_of_no_match _ _ _ _ hsn hsn1 hsn2 hv hnomatch] at hsd
        simp only [Option.some.injEq] at hsd
        rw [← hsd, sdApplyArgTypes_args, sdApplyComponent_args]

set_option maxRecDepth 8000 in
/-- C10 witness: `storyFileXL` (only the `PrimaryXL` export) with story id
`x--primary-xl`: the lookup finds nothing and `args` is absent. -/
theorem c10_witness :
    fileOf fsStoryXL "/p/s.js" = some storyFileXL ∧
    (jsSplit "x--primary-xl" "--").get? 1 = some "primary-xl" ∧
    storyArgsScan storyFileXL.toList (pascalOf "primary-xl") = none ∧
    parseStoryFile fsStoryXL "/p/s.js" "x--primary-xl" "/p" = some sdStoryXL ∧
    (pascalOf "primary-xl" = "PrimaryXl" ∧
      ("PrimaryXl" : String) ≠ "PrimaryXL" ∧
      (∀ part c, part ∈ jsSplit "primary-xl" "-" →
        c ∈ (capWordJs part).toList.drop 1 → isAsciiUpper c = false) ∧
      sdStoryXL.args = none) :=
  ⟨by decide, by decide, by decide, by decide,
    c10_case_folding fsStoryXL "/p/s.js" "x--primary-xl" "/p" storyFileXL "primary-xl"
      sdStoryXL (by decide) (by decide) (by decide) (by decide) (by decide) (by decide)⟩

end SB
